import Mathlib

/-!
Verification of the xrpl-stablecoin-flow repository against its specification.

The repository is a test harness driving a remote XRP Ledger network; the only
in-repo engine code is the funding helper `src/services/fund.service.ts`, which
is embedded below in namespace `FundService`.  The ledger account/trust-line
engine described by the specification (AccountRegistry, TrustLineStore,
PaymentPathEvaluator, CheckLedger, LedgerEngine) has no implementation in the
repository: its behaviour is pinned only by the specification text and by the
integration tests' asserted transaction results.  That engine is therefore
modelled from the specification in namespace `Ledger`, with every deliberate
modelling choice (and every place where the tests' asserted result codes pin a
detail the specification leaves open or states differently) recorded in the
doc comment of the corresponding definition.
-/

namespace FundService

/-- Integer XRP-to-drops conversion (1 XRP = 1,000,000 drops), the integral
case of the vendor `xrpToDrops` used at fund.service.ts:15,66-67. -/
def xrpToDropsInt (xrp : Int) : Int := xrp * 1000000

/-- The 2 XRP minimum-reserve constant `XRP_MINIMUM_DROPS` of
fund.service.ts:15. -/
def XRP_MINIMUM_DROPS : Int := xrpToDropsInt 2

/-- Abstract view of the remote network state read and written by
`fundWallet`: existence and validated balance (in drops) of the target
address and of the environment fund wallet. -/
structure NetworkState where
  targetExists : Bool
  targetBalance : Int
  fundExists : Bool
  fundBalance : Int
deriving DecidableEq, Repr

/-- The externally visible actions `fundWallet` can perform: the faucet
top-up of the fund wallet (fund.service.ts:137) and the signed payment to the
target address (fund.service.ts:158-165). -/
inductive FundAction
  | faucetFundWallet
  | paymentToTarget (amountDrops : Int)
deriving DecidableEq, Repr

/-- Outcome of one `fundWallet` call: the thrown error message if any, the
list of network actions performed, and the resulting network state. -/
structure FundRun where
  error : Option String
  actions : List FundAction
  state : NetworkState
deriving DecidableEq, Repr

/-- The amount-validation guard of fund.service.ts:66-69:
`amountDrops <= 0n || amountDrops < xrpToDrops('1') || amountDrops > xrpToDrops('100')`. -/
def amountInvalid (amountDrops : Int) : Bool :=
  amountDrops ≤ 0 || amountDrops < xrpToDropsInt 1 || amountDrops > xrpToDropsInt 100

/-- Embedding of `fundWallet` (fund.service.ts:64-175) as a state transformer.
The `.env` mnemonic handling (ensureFundMnemonic) is local file bookkeeping
with no network effect and is not modelled; the payment fee autofilled by the
vendor SDK is modelled as zero drops, so the target receives exactly the
requested amount (the fee only lowers the fund wallet's own balance and no
claim depends on it). -/
def fundWallet (st : NetworkState) (amountDrops : Int) : FundRun :=
  -- fund.service.ts:66-69 amount validation, before any network interaction
  if amountInvalid amountDrops then
    { error := some "Amount must be between 1 and 100 XRP", actions := [], state := st }
  -- fund.service.ts:98-103 early return when the target already has enough
  else if st.targetExists ∧ amountDrops ≤ st.targetBalance then
    { error := none, actions := [], state := st }
  else
    -- fund.service.ts:130 faucet top-up condition on the fund wallet
    if ¬ st.fundExists ∨ st.fundBalance < amountDrops + XRP_MINIMUM_DROPS then
      let newFundBalance : Int :=
        (if st.fundExists then st.fundBalance else 0) + xrpToDropsInt 100
      -- fund.service.ts:150-154 re-check after the faucet call
      if newFundBalance < amountDrops + XRP_MINIMUM_DROPS then
        { error := some "Still insufficient balance after auto-funding"
          actions := [FundAction.faucetFundWallet]
          state := { st with fundExists := true, fundBalance := newFundBalance } }
      else
        { error := none
          actions := [FundAction.faucetFundWallet, FundAction.paymentToTarget amountDrops]
          state :=
            { targetExists := true
              targetBalance := (if st.targetExists then st.targetBalance else 0) + amountDrops
              fundExists := true
              fundBalance := newFundBalance - amountDrops } }
    else
      { error := none
        actions := [FundAction.paymentToTarget amountDrops]
        state :=
          { targetExists := true
            targetBalance := (if st.targetExists then st.targetBalance else 0) + amountDrops
            fundExists := st.fundExists
            fundBalance := st.fundBalance - amountDrops } }

end FundService

namespace Ledger

/-- Modelled from the spec: account flags, spec section 3 (Account.flags).
The repository contains no ledger engine; only the specification and the
integration tests pin this data model. -/
inductive Flag
  | RequireAuth
  | DefaultRipple
  | DisallowXRP
  | DepositAuth
  | GlobalFreeze
  | AllowTrustLineClawback
deriving DecidableEq, Repr

/-- Account addresses, opaque unique identifiers (spec section 3). -/
abbrev Addr := Nat

/-- Modelled from the spec: Account record, spec section 3. Balances are in
drops; `preauthorized` is the DepositAuth allow-list. -/
structure Account where
  address : Addr
  xrpBalance : Int
  flags : List Flag
  preauthorized : List Addr
deriving DecidableEq, Repr

/-- Modelled from the spec: TrustLine record keyed by (holder, issuer,
currency), spec sections 2-3.  `balance` is the holder-side signed view;
`authorized` is the issuer-granted bit; the two `noRipple` bits are the two
directional views of spec section 3. -/
structure TrustLine where
  holder : Addr
  issuer : Addr
  currency : Nat
  limit : Int
  balance : Int
  authorized : Bool
  holderNoRipple : Bool
  issuerNoRipple : Bool
deriving DecidableEq, Repr

/-- Modelled from the spec: Check status, spec section 3. -/
inductive CheckStatus
  | Open
  | Cashed
  | Canceled
deriving DecidableEq, Repr

/-- Modelled from the spec: Check object, spec section 3. -/
structure Check where
  id : Nat
  creator : Addr
  destination : Addr
  currency : Nat
  issuer : Addr
  maxAmount : Int
  status : CheckStatus
deriving DecidableEq, Repr

/-- Modelled from the spec: the explicit LedgerState aggregate owned by
LedgerEngine (spec section 9). -/
structure LedgerState where
  accounts : List Account
  lines : List TrustLine
  checks : List Check
  nextCheckId : Nat
deriving DecidableEq, Repr

/-- Modelled from the spec: result taxonomy of spec section 7. -/
inductive TxResult
  | Success
  | NoAuth
  | PathDry
  | NoPermission
  | NoEntry
  | InsufficientReserve
  | InsufficientLimit
  | NotFound
deriving DecidableEq, Repr

/-- Modelled from the spec: PaymentPathEvaluator verdict (spec section 4.3). -/
inductive PayDecision
  | Admissible
  | Denied (reason : TxResult)
deriving DecidableEq, Repr

/-- AccountRegistry.get (spec section 4.1). -/
def getAccount (s : LedgerState) (a : Addr) : Option Account :=
  s.accounts.find? (fun acct => acct.address == a)

/-- Flags of an account, empty for a missing account. -/
def accountFlags (s : LedgerState) (a : Addr) : List Flag :=
  (getAccount s a).elim [] Account.flags

/-- Flag membership test. -/
def hasFlag (s : LedgerState) (a : Addr) (f : Flag) : Bool :=
  (accountFlags s a).contains f

/-- DepositAuth allow-list of an account, empty for a missing account. -/
def preauthList (s : LedgerState) (a : Addr) : List Addr :=
  (getAccount s a).elim [] Account.preauthorized

/-- TrustLineStore lookup by (holder, issuer, currency) (spec section 4.2). -/
def getLine (s : LedgerState) (holder issuer : Addr) (cur : Nat) : Option TrustLine :=
  s.lines.find? (fun l => l.holder == holder && l.issuer == issuer && l.currency == cur)

/-- Holder-side trust-line balance, zero when no line exists. -/
def lineBalance (s : LedgerState) (holder issuer : Addr) (cur : Nat) : Int :=
  (getLine s holder issuer cur).elim 0 TrustLine.balance

/-- CheckLedger lookup by id (spec section 4.4). -/
def findCheck (s : LedgerState) (id : Nat) : Option Check :=
  s.checks.find? (fun c => c.id == id)

/-- Pointwise update of every account record with the given address. -/
def updateAccount (s : LedgerState) (a : Addr) (g : Account → Account) : LedgerState :=
  { s with accounts := s.accounts.map (fun x => if x.address == a then g x else x) }

/-- Pointwise update of the (holder, issuer, currency) trust line. -/
def updateLine (s : LedgerState) (holder issuer : Addr) (cur : Nat)
    (g : TrustLine → TrustLine) : LedgerState :=
  { s with lines := s.lines.map (fun l =>
      if l.holder == holder && l.issuer == issuer && l.currency == cur then g l else l) }

/-- Pointwise update of the check with the given id. -/
def updateCheck (s : LedgerState) (id : Nat) (g : Check → Check) : LedgerState :=
  { s with checks := s.checks.map (fun c => if c.id == id then g c else c) }

/-- Record update adding a flag, idempotently. -/
def setFlagFn (f : Flag) (x : Account) : Account :=
  { x with flags := if x.flags.contains f then x.flags else f :: x.flags }

/-- Record update clearing a flag.  Spec section 3 declares `flags` a set,
so clearing removes the bit entirely; the embedding's list realises that by
filtering out every occurrence. -/
def clearFlagFn (f : Flag) (x : Account) : Account :=
  { x with flags := x.flags.filter (fun g => !(g == f)) }

/-- Record update adding a preauthorized payer, idempotently. -/
def preauthAddFn (b : Addr) (x : Account) : Account :=
  { x with preauthorized :=
      if x.preauthorized.contains b then x.preauthorized else b :: x.preauthorized }

/-- Record update removing a preauthorized payer. -/
def preauthRemoveFn (b : Addr) (x : Account) : Account :=
  { x with preauthorized := x.preauthorized.erase b }

/-- Record update debiting a native balance. -/
def xrpDebitFn (amount : Int) (x : Account) : Account :=
  { x with xrpBalance := x.xrpBalance - amount }

/-- Record update crediting a native balance. -/
def xrpCreditFn (amount : Int) (x : Account) : Account :=
  { x with xrpBalance := x.xrpBalance + amount }

/-- Record update granting trust-line authorization. -/
def authorizeFn (l : TrustLine) : TrustLine := { l with authorized := true }

/-- Record update setting the holder-side limit. -/
def setLimitFn (limit : Int) (l : TrustLine) : TrustLine := { l with limit := limit }

/-- Record update crediting a trust-line balance. -/
def balanceAddFn (amount : Int) (l : TrustLine) : TrustLine :=
  { l with balance := l.balance + amount }

/-- Record update debiting a trust-line balance. -/
def balanceSubFn (amount : Int) (l : TrustLine) : TrustLine :=
  { l with balance := l.balance - amount }

/-- Record update applying the clamped clawback debit of spec section 4.5. -/
def clawbackFn (amount : Int) (l : TrustLine) : TrustLine :=
  { l with balance := l.balance - min amount l.balance }

/-- Record update marking a check cashed. -/
def cashedFn (k : Check) : Check := { k with status := CheckStatus.Cashed }

/-- Record update marking a check canceled. -/
def canceledFn (k : Check) : Check := { k with status := CheckStatus.Canceled }

/-- AccountRegistry.setFlag (spec section 4.1), idempotent. -/
def setFlagOp (s : LedgerState) (a : Addr) (f : Flag) : LedgerState :=
  updateAccount s a (setFlagFn f)

/-- AccountRegistry.clearFlag (spec section 4.1).  Clearing
AllowTrustLineClawback is accepted but has no state effect (spec sections 3,
4.1; allow-trustline-clawback.test.ts:410-443 asserts tesSUCCESS with the
flag still set); every other flag is freely togglable. -/
def clearFlagOp (s : LedgerState) (a : Addr) (f : Flag) : LedgerState :=
  if f = Flag.AllowTrustLineClawback then s
  else updateAccount s a (clearFlagFn f)

/-- Payment asset: native XRP or an issued currency code (spec section 4.3). -/
inductive Cur
  | xrp
  | iou (code : Nat)
deriving DecidableEq, Repr

/-- Step 1 of the canPay decision sequence (spec section 4.3): the
destination holds an existing trust line with the issuer which, when the
issuer has RequireAuth set, must be authorized. -/
def authGateOk (s : LedgerState) (destination issuer : Addr) (code : Nat) : Bool :=
  match getLine s destination issuer code with
  | none => false
  | some l => !(hasFlag s issuer Flag.RequireAuth) || l.authorized

/-- Issuer-side noRipple bit of a party's line with the issuer, the side
relevant for rippling through the issuer (spec sections 3, 4.3 step 3). -/
def issuerSideNoRipple (s : LedgerState) (party issuer : Addr) (code : Nat) : Bool :=
  (getLine s party issuer code).elim false TrustLine.issuerNoRipple

/-- Modelled from the spec: steps 1-3 of PaymentPathEvaluator.canPay (spec
section 4.3); the repository has no evaluator implementation.  Two
modelling choices the spec text leaves ragged, pinned by the repository's
tests:
(a) step 1 is skipped when the destination is the issuer itself (redeeming
    holder-to-issuer payments hold no issuer-to-issuer trust line, and spec
    section 8 requires `canPay(A, Q, ...)` to admit);
(b) step 1 denies with PathDry, not the NoAuth of the spec section 4.3 text:
    the repository's own tests assert tecPATH_DRY for exactly this gate
    (require-auth.test.ts:484 for an issuer-to-holder mint to an unauthorized
    holder, require-auth.test.ts:508 for a holder-to-holder transfer), and
    spec sections 7 and 8 (scenario) also give PathDry for the unauthorized
    cases the tests exercise; no repository test ever asserts tecNO_AUTH. -/
def canPayPre (s : LedgerState) (source destination : Addr) (cur : Cur)
    (issuer : Addr) : PayDecision :=
  match cur with
  | Cur.xrp => PayDecision.Admissible
  | Cur.iou code =>
    if destination ≠ issuer ∧ authGateOk s destination issuer code = false then
      PayDecision.Denied TxResult.PathDry
    else if hasFlag s issuer Flag.GlobalFreeze = true ∧ source ≠ issuer ∧ destination ≠ issuer then
      PayDecision.Denied TxResult.PathDry
    else if (source ≠ issuer ∧ destination ≠ issuer) ∧
        (issuerSideNoRipple s source issuer code = true ∨
          issuerSideNoRipple s destination issuer code = true) then
      PayDecision.Denied TxResult.PathDry
    else PayDecision.Admissible

/-- Step 4 of the canPay decision sequence (spec section 4.3): destination
DepositAuth blocks unless the source is the destination itself or is
preauthorized. -/
def depositGate (s : LedgerState) (source destination : Addr) : Bool :=
  hasFlag s destination Flag.DepositAuth && source != destination &&
    !((preauthList s destination).contains source)

/-- Reserve floor for native XRP debits (spec sections 3, 4.3 step 6).  The
spec fixes no numeric value; 10 XRP in drops is used, and no claim depends
on the figure. -/
def reserveFloor : Int := 10000000

/-- Limit of a party's line with the issuer, zero when no line exists. -/
def lineLimit (s : LedgerState) (holder issuer : Addr) (cur : Nat) : Int :=
  (getLine s holder issuer cur).elim 0 TrustLine.limit

/-- Modelled from the spec: step 6 of PaymentPathEvaluator.canPay (spec
sections 4.2 and 4.3): positive amount, sender balance cover (native: above
the reserve floor; issued: trust-line balance unless the sender is the
issuer), and the receiver limit ceiling (unless the receiver is the
issuer). -/
def canPayPost (s : LedgerState) (source destination : Addr) (cur : Cur)
    (issuer : Addr) (amount : Int) : PayDecision :=
  match cur with
  | Cur.xrp =>
    if amount ≤ 0 then PayDecision.Denied TxResult.InsufficientReserve
    else
      match getAccount s source with
      | none => PayDecision.Denied TxResult.NotFound
      | some acct =>
        if acct.xrpBalance - reserveFloor < amount then
          PayDecision.Denied TxResult.InsufficientReserve
        else PayDecision.Admissible
  | Cur.iou code =>
    if amount ≤ 0 then PayDecision.Denied TxResult.InsufficientLimit
    else if source ≠ issuer ∧ lineBalance s source issuer code < amount then
      PayDecision.Denied TxResult.InsufficientLimit
    else if destination ≠ issuer ∧
        lineLimit s destination issuer code < lineBalance s destination issuer code + amount then
      PayDecision.Denied TxResult.InsufficientLimit
    else PayDecision.Admissible

/-- Modelled from the spec: PaymentPathEvaluator.canPay (spec section 4.3)
with the DepositAuth step optionally suppressed, exactly the hook CheckLedger
cashing uses (spec section 4.4).  DisallowXRP (step 5) is advisory and never
denies, so it contributes no branch. -/
def canPayAux (bypassDepositAuth : Bool) (s : LedgerState) (source destination : Addr)
    (cur : Cur) (issuer : Addr) (amount : Int) : PayDecision :=
  match canPayPre s source destination cur issuer with
  | PayDecision.Denied r => PayDecision.Denied r
  | PayDecision.Admissible =>
    if bypassDepositAuth = false ∧ depositGate s source destination = true then
      PayDecision.Denied TxResult.NoPermission
    else canPayPost s source destination cur issuer amount

/-- PaymentPathEvaluator.canPay contract of spec section 4.3. -/
def canPay (s : LedgerState) (source destination : Addr) (cur : Cur)
    (issuer : Addr) (amount : Int) : PayDecision :=
  canPayAux false s source destination cur issuer amount

/-- Balance mutation of an admissible payment (spec sections 4.2, 4.5):
native XRP moves account balances; an issued currency moves the trust-line
balances of the two issuer hops, skipping the issuer endpoint itself
(mint/redeem only touches the counterpart line). -/
def execPayment (s : LedgerState) (source destination : Addr) (cur : Cur)
    (issuer : Addr) (amount : Int) : LedgerState :=
  match cur with
  | Cur.xrp =>
    let s1 := updateAccount s source (xrpDebitFn amount)
    updateAccount s1 destination (xrpCreditFn amount)
  | Cur.iou code =>
    let s1 :=
      if source = issuer then s
      else updateLine s source issuer code (balanceSubFn amount)
    if destination = issuer then s1
    else updateLine s1 destination issuer code (balanceAddFn amount)

/-- Modelled from the spec: the transaction vocabulary LedgerEngine applies
(spec section 4.5): AccountSet (set/clear), TrustSet, trust-line
authorization, Payment, Clawback, CheckCreate/Cash/Cancel, DepositPreauth
(grant and revoke). -/
inductive Tx
  | accountSetSet (account : Addr) (flag : Flag)
  | accountSetClear (account : Addr) (flag : Flag)
  | trustSet (holder issuer : Addr) (currency : Nat) (limit : Int)
  | trustAuthorize (issuer holder : Addr) (currency : Nat)
  | payment (source destination : Addr) (cur : Cur) (issuer : Addr) (amount : Int)
  | clawback (issuer holder : Addr) (currency : Nat) (amount : Int)
  | checkCreate (creator destination : Addr) (currency : Nat) (issuer : Addr) (maxAmount : Int)
  | checkCash (checkId : Nat) (actor : Addr) (amount : Int)
  | checkCancel (checkId : Nat) (actor : Addr)
  | depositPreauth (account authorized : Addr)
  | depositUnauth (account authorized : Addr)
deriving DecidableEq, Repr

/-- AccountSet SetFlag: the account must exist; setting is idempotent. -/
def applyAccountSetSet (s : LedgerState) (a : Addr) (f : Flag) : TxResult × LedgerState :=
  match getAccount s a with
  | none => (TxResult.NotFound, s)
  | some _ => (TxResult.Success, setFlagOp s a f)

/-- AccountSet ClearFlag: returns Success even for AllowTrustLineClawback,
where the state effect is suppressed (spec sections 3, 4.1). -/
def applyAccountSetClear (s : LedgerState) (a : Addr) (f : Flag) : TxResult × LedgerState :=
  match getAccount s a with
  | none => (TxResult.NotFound, s)
  | some _ => (TxResult.Success, clearFlagOp s a f)

/-- TrustLineStore.open / setLimit (spec section 4.2): a first TrustSet
creates the line with zero balance, unauthorized, and the issuer-side
noRipple default snapshot from the issuer's DefaultRipple flag (spec
section 3); a repeated TrustSet only adjusts the holder-side limit. -/
def applyTrustSet (s : LedgerState) (holder issuer : Addr) (cur : Nat)
    (limit : Int) : TxResult × LedgerState :=
  match getLine s holder issuer cur with
  | some _ => (TxResult.Success, updateLine s holder issuer cur (setLimitFn limit))
  | none =>
    (TxResult.Success,
      { s with lines := s.lines ++
          [⟨holder, issuer, cur, limit, 0, false, false, !(hasFlag s issuer Flag.DefaultRipple)⟩] })

/-- TrustLineStore.setAuthorized (spec section 4.2): issuer-side grant,
idempotent and irreversible; NoEntry when the line does not exist. -/
def applyTrustAuthorize (s : LedgerState) (issuer holder : Addr) (cur : Nat) :
    TxResult × LedgerState :=
  match getLine s holder issuer cur with
  | none => (TxResult.NoEntry, s)
  | some _ =>
    (TxResult.Success, updateLine s holder issuer cur authorizeFn)

/-- Payment application (spec section 4.5): delegate to canPay, mutate on
admission, return the denial code untouched otherwise. -/
def applyPayment (s : LedgerState) (source destination : Addr) (cur : Cur)
    (issuer : Addr) (amount : Int) : TxResult × LedgerState :=
  match canPay s source destination cur issuer amount with
  | PayDecision.Admissible =>
    (TxResult.Success, execPayment s source destination cur issuer amount)
  | PayDecision.Denied r => (r, s)

/-- Modelled from the spec: the Clawback transaction (spec section 4.5):
issuer-only (the line keyed under any other issuer does not exist, giving
NoEntry), moving min(requested, holder balance) from the holder back to the
issuer, and never failing on over-request
(allow-trustline-clawback.test.ts:359-407).  The spec text imposes no
amount validation and none is modelled. -/
def applyClawback (s : LedgerState) (issuer holder : Addr) (cur : Nat)
    (amount : Int) : TxResult × LedgerState :=
  match getLine s holder issuer cur with
  | none => (TxResult.NoEntry, s)
  | some _ =>
    (TxResult.Success,
      updateLine s holder issuer cur (clawbackFn amount))

/-- CheckCreate (spec sections 3, 4.4): a fresh id, status Open. -/
def applyCheckCreate (s : LedgerState) (creator destination : Addr) (cur : Nat)
    (issuer : Addr) (maxAmount : Int) : TxResult × LedgerState :=
  (TxResult.Success,
    { s with
        checks := s.checks ++
          [⟨s.nextCheckId, creator, destination, cur, issuer, maxAmount, CheckStatus.Open⟩]
        nextCheckId := s.nextCheckId + 1 })

/-- CheckLedger.cash (spec section 4.4): requires an existing non-terminal
check (else NoEntry, spec section 7), the destination as actor, amount at
most maxAmount, then delegates to the evaluator with the DepositAuth step
suppressed.  The spec names no code for the actor/amount guards;
NoPermission is used and no claim depends on it. -/
def applyCheckCash (s : LedgerState) (checkId : Nat) (actor : Addr)
    (amount : Int) : TxResult × LedgerState :=
  match findCheck s checkId with
  | none => (TxResult.NoEntry, s)
  | some c =>
    if c.status ≠ CheckStatus.Open then (TxResult.NoEntry, s)
    else if actor ≠ c.destination then (TxResult.NoPermission, s)
    else if c.maxAmount < amount then (TxResult.NoPermission, s)
    else
      match canPayAux true s c.creator c.destination (Cur.iou c.currency) c.issuer amount with
      | PayDecision.Denied r => (r, s)
      | PayDecision.Admissible =>
        (TxResult.Success,
          updateCheck (execPayment s c.creator c.destination (Cur.iou c.currency) c.issuer amount)
            checkId cashedFn)

/-- CheckLedger.cancel (spec section 4.4): existing Open check, actor is the
creator or the destination. -/
def applyCheckCancel (s : LedgerState) (checkId : Nat) (actor : Addr) :
    TxResult × LedgerState :=
  match findCheck s checkId with
  | none => (TxResult.NoEntry, s)
  | some c =>
    if c.status ≠ CheckStatus.Open then (TxResult.NoEntry, s)
    else if actor = c.creator ∨ actor = c.destination then
      (TxResult.Success, updateCheck s checkId canceledFn)
    else (TxResult.NoPermission, s)

/-- DepositPreauth grant (spec section 3): adds to the allow-list,
idempotent. -/
def applyDepositPreauth (s : LedgerState) (a b : Addr) : TxResult × LedgerState :=
  match getAccount s a with
  | none => (TxResult.NotFound, s)
  | some _ =>
    (TxResult.Success, updateAccount s a (preauthAddFn b))

/-- DepositPreauth revoke: removes from the allow-list. -/
def applyDepositUnauth (s : LedgerState) (a b : Addr) : TxResult × LedgerState :=
  match getAccount s a with
  | none => (TxResult.NotFound, s)
  | some _ =>
    (TxResult.Success, updateAccount s a (preauthRemoveFn b))

/-- Modelled from the spec: LedgerEngine.apply (spec section 4.5), one
transaction at a time, all-or-nothing. -/
def applyTx (s : LedgerState) : Tx → TxResult × LedgerState
  | Tx.accountSetSet a f => applyAccountSetSet s a f
  | Tx.accountSetClear a f => applyAccountSetClear s a f
  | Tx.trustSet holder issuer cur limit => applyTrustSet s holder issuer cur limit
  | Tx.trustAuthorize issuer holder cur => applyTrustAuthorize s issuer holder cur
  | Tx.payment source destination cur issuer amount =>
    applyPayment s source destination cur issuer amount
  | Tx.clawback issuer holder cur amount => applyClawback s issuer holder cur amount
  | Tx.checkCreate creator destination cur issuer maxAmount =>
    applyCheckCreate s creator destination cur issuer maxAmount
  | Tx.checkCash checkId actor amount => applyCheckCash s checkId actor amount
  | Tx.checkCancel checkId actor => applyCheckCancel s checkId actor
  | Tx.depositPreauth a b => applyDepositPreauth s a b
  | Tx.depositUnauth a b => applyDepositUnauth s a b

end Ledger

namespace LedgerClaims

open Ledger

/-- Concrete one-line ledger for the C1 witness: holder 1 holds 300 units of
issuer 0's currency 7. -/
def c1Ledger : LedgerState :=
  { accounts := [], lines := [⟨1, 0, 7, 1000, 300, false, false, false⟩],
    checks := [], nextCheckId := 0 }

/-- Concrete ledger for the C2 witness: account 0 with the clawback flag
set. -/
def c2Ledger : LedgerState :=
  { accounts := [⟨0, 0, [Flag.AllowTrustLineClawback], []⟩],
    lines := [], checks := [], nextCheckId := 0 }

/-- Concrete ledger for the C8 witness: account 2 has DepositAuth set and
account 1 attempts a native payment to it. -/
def c8Ledger : LedgerState :=
  { accounts := [⟨1, 100000000, [], []⟩, ⟨2, 100000000, [Flag.DepositAuth], []⟩],
    lines := [], checks := [], nextCheckId := 0 }

/-- Concrete ledger for the C7 witness: a single check already Canceled. -/
def c7Ledger : LedgerState :=
  { accounts := [], lines := [],
    checks := [⟨0, 1, 2, 7, 0, 800, CheckStatus.Canceled⟩], nextCheckId := 1 }

/-- Concrete ledger for the C3 witness: issuer 0, creator 1 holding 20000 of
currency 7, destination 2 with DepositAuth set, and an Open check for at
most 800. -/
def c3Ledger : LedgerState :=
  { accounts := [⟨0, 0, [Flag.DefaultRipple], []⟩, ⟨1, 0, [], []⟩,
      ⟨2, 0, [Flag.DepositAuth], []⟩],
    lines := [⟨1, 0, 7, 1000000, 20000, false, false, false⟩,
      ⟨2, 0, 7, 1000000, 0, false, false, false⟩],
    checks := [⟨0, 1, 2, 7, 0, 800, CheckStatus.Open⟩], nextCheckId := 1 }

/-- Concrete ledger for the C5 witness: account 2 has DepositAuth, account 1
holds 100 XRP and attempts a native payment of 500 drops. -/
def c5Ledger : LedgerState :=
  { accounts := [⟨1, 100000000, [], []⟩, ⟨2, 100000000, [Flag.DepositAuth], []⟩],
    lines := [], checks := [], nextCheckId := 0 }

/-- Concrete ledger for the C4 witness: issuer 0 with DefaultRipple, holders
1 and 2 with funded rippling-enabled trust lines in currency 7. -/
def c4Ledger : LedgerState :=
  { accounts := [⟨0, 0, [Flag.DefaultRipple], []⟩, ⟨1, 0, [], []⟩, ⟨2, 0, [], []⟩],
    lines := [⟨1, 0, 7, 1000000, 20000, false, false, false⟩,
      ⟨2, 0, 7, 1000000, 10000, false, false, false⟩],
    checks := [], nextCheckId := 0 }

/-- Concrete ledger for C6: issuer 0 with RequireAuth and DefaultRipple set,
holder 3 with an existing but unauthorized trust line in currency 7, as in
Phase 5 of require-auth.test.ts. -/
def c6Ledger : LedgerState :=
  { accounts := [⟨0, 0, [Flag.RequireAuth, Flag.DefaultRipple], []⟩, ⟨3, 0, [], []⟩],
    lines := [⟨3, 0, 7, 1000000, 0, false, false, false⟩],
    checks := [], nextCheckId := 0 }

end LedgerClaims

namespace Ledger

section FindLemmas

variable {α : Type}

/-- Mapping a guarded update over a list leaves a search untouched when the
search predicate and the update guard are disjoint. -/
lemma find?_map_ite_not (l : List α) (p q : α → Bool) (g : α → α)
    (hpg : ∀ x, p (g x) = p x) (hdisj : ∀ x, p x = true → q x = false) :
    (l.map (fun x => if q x then g x else x)).find? p = l.find? p := by
  induction l with
  | nil => rfl
  | cons x xs ih =>
    by_cases hq : q x = true
    · have hp : p x = false := by
        cases hpx : p x
        · rfl
        · have hqf := hdisj x hpx
          rw [hqf] at hq
          exact absurd hq (by simp)
      have hpg' : p (g x) = false := by rw [hpg, hp]
      simp only [List.map_cons, if_pos hq]
      rw [List.find?_cons_of_neg _ (by simp [hpg']), List.find?_cons_of_neg _ (by simp [hp])]
      exact ih
    · simp only [List.map_cons, if_neg hq]
      cases hpx : p x
      · rw [List.find?_cons_of_neg _ (by simp [hpx]), List.find?_cons_of_neg _ (by simp [hpx])]
        exact ih
      · rw [List.find?_cons_of_pos _ (by simp [hpx]), List.find?_cons_of_pos _ (by simp [hpx])]

/-- Mapping a guarded update over a list rewrites the search result through
the update when the search predicate entails the update guard. -/
lemma find?_map_ite_sub (l : List α) (p q : α → Bool) (g : α → α)
    (hpg : ∀ x, p (g x) = p x) (hsub : ∀ x, p x = true → q x = true) :
    (l.map (fun x => if q x then g x else x)).find? p = (l.find? p).map g := by
  induction l with
  | nil => rfl
  | cons x xs ih =>
    cases hpx : p x
    · have h1 : p (if q x then g x else x) = false := by
        by_cases hq : q x = true
        · rw [if_pos hq, hpg, hpx]
        · rw [if_neg hq]; exact hpx
      simp only [List.map_cons]
      rw [List.find?_cons_of_neg _ (by simp [h1]), List.find?_cons_of_neg _ (by simp [hpx])]
      exact ih
    · have hq := hsub x hpx
      simp only [List.map_cons, if_pos hq]
      rw [List.find?_cons_of_pos _ (by simp [hpg, hpx]), List.find?_cons_of_pos _ (by simp [hpx])]
      rfl

end FindLemmas

/-- Account lookup after an address-preserving pointwise account update. -/
lemma getAccount_updateAccount (s : LedgerState) (b : Addr) (g : Account → Account)
    (hg : ∀ x, (g x).address = x.address) (a : Addr) :
    getAccount (updateAccount s b g) a =
      if a = b then (getAccount s b).map g else getAccount s a := by
  by_cases hab : a = b
  · subst hab
    rw [if_pos rfl]
    exact find?_map_ite_sub s.accounts _ _ g (fun x => by simp [hg]) (fun x hx => hx)
  · rw [if_neg hab]
    exact find?_map_ite_not s.accounts _ _ g (fun x => by simp [hg])
      (fun x hx => by
        have hxa : x.address = a := by simpa using hx
        simp [hxa, hab])

/-- Trust-line lookup after a key-preserving pointwise line update. -/
lemma getLine_updateLine (s : LedgerState) (h1 i1 : Addr) (c1 : Nat)
    (g : TrustLine → TrustLine)
    (hgh : ∀ x, (g x).holder = x.holder) (hgi : ∀ x, (g x).issuer = x.issuer)
    (hgc : ∀ x, (g x).currency = x.currency) (h2 i2 : Addr) (c2 : Nat) :
    getLine (updateLine s h1 i1 c1 g) h2 i2 c2 =
      if h2 = h1 ∧ i2 = i1 ∧ c2 = c1 then (getLine s h2 i2 c2).map g
      else getLine s h2 i2 c2 := by
  by_cases hk : h2 = h1 ∧ i2 = i1 ∧ c2 = c1
  · obtain ⟨e1, e2, e3⟩ := hk
    subst e1; subst e2; subst e3
    rw [if_pos ⟨rfl, rfl, rfl⟩]
    exact find?_map_ite_sub s.lines _ _ g (fun x => by simp [hgh, hgi, hgc]) (fun x hx => hx)
  · rw [if_neg hk]
    exact find?_map_ite_not s.lines _ _ g (fun x => by simp [hgh, hgi, hgc])
      (fun x hx => by
        simp only [Bool.and_eq_true, beq_iff_eq] at hx
        obtain ⟨⟨e1, e2⟩, e3⟩ := hx
        cases hcon : (x.holder == h1 && x.issuer == i1 && x.currency == c1)
        · rfl
        · exfalso
          simp only [Bool.and_eq_true, beq_iff_eq] at hcon
          obtain ⟨⟨f1, f2⟩, f3⟩ := hcon
          exact hk ⟨by rw [← e1, f1], by rw [← e2, f2], by rw [← e3, f3]⟩)

/-- Check lookup after an id-preserving pointwise check update. -/
lemma findCheck_updateCheck (s : LedgerState) (i1 : Nat) (g : Check → Check)
    (hg : ∀ x, (g x).id = x.id) (i2 : Nat) :
    findCheck (updateCheck s i1 g) i2 =
      if i2 = i1 then (findCheck s i2).map g else findCheck s i2 := by
  by_cases hk : i2 = i1
  · subst hk
    rw [if_pos rfl]
    exact find?_map_ite_sub s.checks _ _ g (fun x => by simp [hg]) (fun x hx => hx)
  · rw [if_neg hk]
    exact find?_map_ite_not s.checks _ _ g (fun x => by simp [hg])
      (fun x hx => by
        have hxa : x.id = i2 := by simpa using hx
        simp [hxa, hk])

/-- Account updates do not touch trust lines. -/
lemma getLine_updateAccount (s : LedgerState) (b : Addr) (g : Account → Account)
    (h i : Addr) (c : Nat) : getLine (updateAccount s b g) h i c = getLine s h i c := rfl

/-- Line updates do not touch accounts. -/
lemma getAccount_updateLine (s : LedgerState) (h i : Addr) (c : Nat)
    (g : TrustLine → TrustLine) (a : Addr) :
    getAccount (updateLine s h i c g) a = getAccount s a := rfl

/-- Check updates do not touch accounts. -/
lemma getAccount_updateCheck (s : LedgerState) (i1 : Nat) (g : Check → Check) (a : Addr) :
    getAccount (updateCheck s i1 g) a = getAccount s a := rfl

/-- Account updates do not touch checks. -/
lemma findCheck_updateAccount (s : LedgerState) (b : Addr) (g : Account → Account) (i : Nat) :
    findCheck (updateAccount s b g) i = findCheck s i := rfl

/-- Line updates do not touch checks. -/
lemma findCheck_updateLine (s : LedgerState) (h i : Addr) (c : Nat)
    (g : TrustLine → TrustLine) (i1 : Nat) :
    findCheck (updateLine s h i c g) i1 = findCheck s i1 := rfl

/-- Check updates do not touch trust lines. -/
lemma getLine_updateCheck (s : LedgerState) (i1 : Nat) (g : Check → Check)
    (h i : Addr) (c : Nat) : getLine (updateCheck s i1 g) h i c = getLine s h i c := rfl

/-- Flag reads only involve the accounts component. -/
lemma hasFlag_congr_accounts {s' s : LedgerState} (h : s'.accounts = s.accounts)
    (a : Addr) (f : Flag) : hasFlag s' a f = hasFlag s a f := by
  unfold hasFlag accountFlags getAccount
  rw [h]

/-- Preauthorization reads only involve the accounts component. -/
lemma preauthList_congr_accounts {s' s : LedgerState} (h : s'.accounts = s.accounts)
    (a : Addr) : preauthList s' a = preauthList s a := by
  unfold preauthList getAccount
  rw [h]

/-- Trust-line reads only involve the lines component. -/
lemma getLine_congr_lines {s' s : LedgerState} (h : s'.lines = s.lines)
    (h1 i1 : Addr) (c1 : Nat) : getLine s' h1 i1 c1 = getLine s h1 i1 c1 := by
  unfold getLine
  rw [h]

/-- Check reads only involve the checks component. -/
lemma findCheck_congr_checks {s' s : LedgerState} (h : s'.checks = s.checks)
    (i : Nat) : findCheck s' i = findCheck s i := by
  unfold findCheck
  rw [h]

/-- Option elimination through a flags-preserving map. -/
lemma elim_map_flags (o : Option Account) (g : Account → Account)
    (hgf : ∀ x, (g x).flags = x.flags) :
    (o.map g).elim [] Account.flags = o.elim [] Account.flags := by
  cases o <;> simp [hgf]

/-- Option elimination through an allow-list-preserving map. -/
lemma elim_map_preauth (o : Option Account) (g : Account → Account)
    (hgp : ∀ x, (g x).preauthorized = x.preauthorized) :
    (o.map g).elim [] Account.preauthorized = o.elim [] Account.preauthorized := by
  cases o <;> simp [hgp]

/-- Option mapping through a balance-preserving map. -/
lemma map_map_xrp (o : Option Account) (g : Account → Account)
    (hgb : ∀ x, (g x).xrpBalance = x.xrpBalance) :
    (o.map g).map Account.xrpBalance = o.map Account.xrpBalance := by
  cases o <;> simp [hgb]

/-- Flag reads of a non-updated account are untouched. -/
lemma hasFlag_updateAccount_ne (s : LedgerState) (b : Addr) (g : Account → Account)
    (hg : ∀ x, (g x).address = x.address) (a : Addr) (f : Flag) (hab : a ≠ b) :
    hasFlag (updateAccount s b g) a f = hasFlag s a f := by
  unfold hasFlag accountFlags
  rw [getAccount_updateAccount s b g hg a, if_neg hab]

/-- Preauthorization reads of a non-updated account are untouched. -/
lemma preauthList_updateAccount_ne (s : LedgerState) (b : Addr) (g : Account → Account)
    (hg : ∀ x, (g x).address = x.address) (a : Addr) (hab : a ≠ b) :
    preauthList (updateAccount s b g) a = preauthList s a := by
  unfold preauthList
  rw [getAccount_updateAccount s b g hg a, if_neg hab]

/-- Flag reads are untouched by account updates that keep the flag list. -/
lemma hasFlag_updateAccount_flagsEq (s : LedgerState) (b : Addr) (g : Account → Account)
    (hg : ∀ x, (g x).address = x.address) (hgf : ∀ x, (g x).flags = x.flags)
    (a : Addr) (f : Flag) :
    hasFlag (updateAccount s b g) a f = hasFlag s a f := by
  unfold hasFlag accountFlags
  rw [getAccount_updateAccount s b g hg a]
  by_cases hab : a = b
  · subst hab
    rw [if_pos rfl, elim_map_flags _ g hgf]
  · rw [if_neg hab]

/-- Preauthorization reads are untouched by account updates that keep the
allow-list. -/
lemma preauthList_updateAccount_preEq (s : LedgerState) (b : Addr) (g : Account → Account)
    (hg : ∀ x, (g x).address = x.address)
    (hgp : ∀ x, (g x).preauthorized = x.preauthorized) (a : Addr) :
    preauthList (updateAccount s b g) a = preauthList s a := by
  unfold preauthList
  rw [getAccount_updateAccount s b g hg a]
  by_cases hab : a = b
  · subst hab
    rw [if_pos rfl, elim_map_preauth _ g hgp]
  · rw [if_neg hab]

/-- Native-balance reads are untouched by account updates that keep the XRP
balance. -/
lemma xrpMap_updateAccount (s : LedgerState) (b : Addr) (g : Account → Account)
    (hg : ∀ x, (g x).address = x.address)
    (hgb : ∀ x, (g x).xrpBalance = x.xrpBalance) (a : Addr) :
    (getAccount (updateAccount s b g) a).map Account.xrpBalance =
      (getAccount s a).map Account.xrpBalance := by
  rw [getAccount_updateAccount s b g hg a]
  by_cases hab : a = b
  · subst hab
    rw [if_pos rfl, map_map_xrp _ g hgb]
  · rw [if_neg hab]

/-- Setting one flag does not change reads of a different flag, on any
account. -/
lemma hasFlag_setFlagOp_ne (s : LedgerState) (b : Addr) (f : Flag) (a : Addr)
    (f' : Flag) (hff : f' ≠ f) :
    hasFlag (setFlagOp s b f) a f' = hasFlag s a f' := by
  unfold hasFlag accountFlags setFlagOp
  rw [getAccount_updateAccount s b (setFlagFn f) (fun x => rfl) a]
  by_cases hab : a = b
  · subst hab
    rw [if_pos rfl]
    rcases hx : getAccount s a with _ | x
    · rfl
    · by_cases hc : f ∈ x.flags
      · simp [setFlagFn, hc]
      · simp [setFlagFn, hc, List.mem_cons, hff]
  · rw [if_neg hab]

/-- Setting a flag preserves every flag already present, on any account. -/
lemma hasFlag_setFlagOp_mono (s : LedgerState) (b : Addr) (f : Flag) (a : Addr)
    (f' : Flag) (h : hasFlag s a f' = true) :
    hasFlag (setFlagOp s b f) a f' = true := by
  by_cases hff : f' = f
  · subst hff
    unfold hasFlag accountFlags at h ⊢
    unfold setFlagOp
    rw [getAccount_updateAccount s b (setFlagFn f') (fun x => rfl) a]
    by_cases hab : a = b
    · subst hab
      rcases hx : getAccount s a with _ | x
      · rw [hx] at h
        simp at h
      · rw [hx] at h
        simp only [Option.elim] at h
        have h' : f' ∈ x.flags := by simpa using h
        rw [if_pos rfl]
        simp [setFlagFn, h']
    · rw [if_neg hab]
      exact h
  · rw [hasFlag_setFlagOp_ne s b f a f' hff]
    exact h

/-- Setting a flag makes it read true on an existing account. -/
lemma hasFlag_setFlagOp_self (s : LedgerState) (b : Addr) (f : Flag) (x : Account)
    (hb : getAccount s b = some x) :
    hasFlag (setFlagOp s b f) b f = true := by
  unfold hasFlag accountFlags setFlagOp
  rw [getAccount_updateAccount s b (setFlagFn f) (fun y => rfl) b, if_pos rfl, hb]
  by_cases hc : f ∈ x.flags
  · simp [setFlagFn, hc]
  · simp [setFlagFn, hc, List.mem_cons]

/-- Clearing one flag does not change reads of a different flag, on any
account. -/
lemma hasFlag_clearFlagOp_ne (s : LedgerState) (b : Addr) (f : Flag) (a : Addr)
    (f' : Flag) (hff : f' ≠ f) :
    hasFlag (clearFlagOp s b f) a f' = hasFlag s a f' := by
  unfold clearFlagOp
  by_cases hclaw : f = Flag.AllowTrustLineClawback
  · rw [if_pos hclaw]
  · rw [if_neg hclaw]
    unfold hasFlag accountFlags
    rw [getAccount_updateAccount s b (clearFlagFn f) (fun x => rfl) a]
    by_cases hab : a = b
    · subst hab
      rw [if_pos rfl]
      rcases hx : getAccount s a with _ | x
      · rfl
      · simp [clearFlagFn, List.mem_filter, hff]
    · rw [if_neg hab]

/-- Clearing any flag preserves a set AllowTrustLineClawback bit: the
clawback clear is a no-op and erasing a different flag keeps membership. -/
lemma hasFlag_clearFlagOp_claw (s : LedgerState) (b : Addr) (f : Flag) (a : Addr)
    (h : hasFlag s a Flag.AllowTrustLineClawback = true) :
    hasFlag (clearFlagOp s b f) a Flag.AllowTrustLineClawback = true := by
  by_cases hclaw : f = Flag.AllowTrustLineClawback
  · subst hclaw
    unfold clearFlagOp
    rw [if_pos rfl]
    exact h
  · rw [hasFlag_clearFlagOp_ne s b f a Flag.AllowTrustLineClawback
      (fun hx => hclaw hx.symm)]
    exact h

/-- Steps 1-3 of the evaluator read only the lines component and the
issuer's RequireAuth and GlobalFreeze flags. -/
lemma canPayPre_eq_of_reads (s' s : LedgerState) (source destination : Addr)
    (cur : Cur) (issuer : Addr)
    (hl : s'.lines = s.lines)
    (hra : hasFlag s' issuer Flag.RequireAuth = hasFlag s issuer Flag.RequireAuth)
    (hgf : hasFlag s' issuer Flag.GlobalFreeze = hasFlag s issuer Flag.GlobalFreeze) :
    canPayPre s' source destination cur issuer =
      canPayPre s source destination cur issuer := by
  cases cur with
  | xrp => rfl
  | iou code =>
    simp only [canPayPre, authGateOk, issuerSideNoRipple, getLine_congr_lines hl, hra, hgf]

/-- The DepositAuth gate reads only the destination's DepositAuth flag and
allow-list. -/
lemma depositGate_eq_of_reads (s' s : LedgerState) (source destination : Addr)
    (hda : hasFlag s' destination Flag.DepositAuth = hasFlag s destination Flag.DepositAuth)
    (hpre : preauthList s' destination = preauthList s destination) :
    depositGate s' source destination = depositGate s source destination := by
  unfold depositGate
  rw [hda, hpre]

/-- Step 6 of the evaluator reads only the lines component and the source
account's native balance. -/
lemma canPayPost_eq_of_reads (s' s : LedgerState) (source destination : Addr)
    (cur : Cur) (issuer : Addr) (amount : Int)
    (hl : s'.lines = s.lines)
    (hsrc : (getAccount s' source).map Account.xrpBalance =
      (getAccount s source).map Account.xrpBalance) :
    canPayPost s' source destination cur issuer amount =
      canPayPost s source destination cur issuer amount := by
  cases cur with
  | xrp =>
    rcases h : getAccount s source with _ | acct
    · rcases h' : getAccount s' source with _ | acct'
      · simp only [canPayPost, h, h']
      · rw [h, h'] at hsrc
        simp at hsrc
    · rcases h' : getAccount s' source with _ | acct'
      · rw [h, h'] at hsrc
        simp at hsrc
      · have heq : acct'.xrpBalance = acct.xrpBalance := by
          rw [h, h'] at hsrc
          simpa using hsrc
        simp only [canPayPost, h, h', heq]
  | iou code =>
    simp only [canPayPost, lineBalance, lineLimit, getLine_congr_lines hl]

/-- The cash-side evaluation (DepositAuth suppressed) is untouched by state
changes that keep the lines, the issuer's gating flags, and the source's
native balance. -/
lemma canPayAuxTrue_eq_of_reads (s' s : LedgerState) (source destination : Addr)
    (cur : Cur) (issuer : Addr) (amount : Int)
    (hl : s'.lines = s.lines)
    (hra : hasFlag s' issuer Flag.RequireAuth = hasFlag s issuer Flag.RequireAuth)
    (hgf : hasFlag s' issuer Flag.GlobalFreeze = hasFlag s issuer Flag.GlobalFreeze)
    (hsrc : (getAccount s' source).map Account.xrpBalance =
      (getAccount s source).map Account.xrpBalance) :
    canPayAux true s' source destination cur issuer amount =
      canPayAux true s source destination cur issuer amount := by
  unfold canPayAux
  rw [canPayPre_eq_of_reads s' s source destination cur issuer hl hra hgf]
  cases hp : canPayPre s source destination cur issuer with
  | Denied r => rfl
  | Admissible =>
    have hpost := canPayPost_eq_of_reads s' s source destination cur issuer amount hl hsrc
    simp [hpost]

/-- The full evaluation is untouched by state changes that keep the lines,
the issuer's gating flags, the destination's DepositAuth data and the
source's native balance. -/
lemma canPay_eq_of_reads (s' s : LedgerState) (source destination : Addr)
    (cur : Cur) (issuer : Addr) (amount : Int)
    (hl : s'.lines = s.lines)
    (hra : hasFlag s' issuer Flag.RequireAuth = hasFlag s issuer Flag.RequireAuth)
    (hgf : hasFlag s' issuer Flag.GlobalFreeze = hasFlag s issuer Flag.GlobalFreeze)
    (hda : hasFlag s' destination Flag.DepositAuth = hasFlag s destination Flag.DepositAuth)
    (hpre : preauthList s' destination = preauthList s destination)
    (hsrc : (getAccount s' source).map Account.xrpBalance =
      (getAccount s source).map Account.xrpBalance) :
    canPay s' source destination cur issuer amount =
      canPay s source destination cur issuer amount := by
  unfold canPay canPayAux
  rw [canPayPre_eq_of_reads s' s source destination cur issuer hl hra hgf]
  cases hp : canPayPre s source destination cur issuer with
  | Denied r => rfl
  | Admissible =>
    rw [depositGate_eq_of_reads s' s source destination hda hpre]
    by_cases hgate : depositGate s source destination = true
    · simp [hgate]
    · have hpost := canPayPost_eq_of_reads s' s source destination cur issuer amount hl hsrc
      simp [hgate, hpost]

/-- An admissible cash-side evaluation means steps 1-3 and step 6 both
admit. -/
lemma canPayAuxTrue_admissible (s : LedgerState) (source destination : Addr)
    (cur : Cur) (issuer : Addr) (amount : Int)
    (h : canPayAux true s source destination cur issuer amount = PayDecision.Admissible) :
    canPayPre s source destination cur issuer = PayDecision.Admissible ∧
    canPayPost s source destination cur issuer amount = PayDecision.Admissible := by
  unfold canPayAux at h
  cases hp : canPayPre s source destination cur issuer with
  | Denied r =>
    rw [hp] at h
    simp at h
  | Admissible =>
    rw [hp] at h
    simp at h
    exact ⟨rfl, h⟩

/-- With steps 1-3 admitting and the DepositAuth gate raised, the full
evaluation denies NoPermission. -/
lemma canPay_noPermission_of_gate (s : LedgerState) (source destination : Addr)
    (cur : Cur) (issuer : Addr) (amount : Int)
    (h1 : canPayPre s source destination cur issuer = PayDecision.Admissible)
    (hgate : depositGate s source destination = true) :
    canPay s source destination cur issuer amount =
      PayDecision.Denied TxResult.NoPermission := by
  unfold canPay canPayAux
  rw [h1]
  simp [hgate]

/-- With the DepositAuth gate down, the full evaluation coincides with the
cash-side evaluation. -/
lemma canPay_eq_auxTrue_of_gate_false (s : LedgerState) (source destination : Addr)
    (cur : Cur) (issuer : Addr) (amount : Int)
    (hgate : depositGate s source destination = false) :
    canPay s source destination cur issuer amount =
      canPayAux true s source destination cur issuer amount := by
  unfold canPay canPayAux
  cases hp : canPayPre s source destination cur issuer <;> simp [hgate]

/-- Steps 1-3 either admit or deny PathDry. -/
lemma canPayPre_cases (s : LedgerState) (source destination : Addr) (cur : Cur)
    (issuer : Addr) :
    canPayPre s source destination cur issuer = PayDecision.Admissible ∨
    canPayPre s source destination cur issuer = PayDecision.Denied TxResult.PathDry := by
  cases cur with
  | xrp => exact Or.inl rfl
  | iou code =>
    unfold canPayPre
    repeat' split
    all_goals simp

/-- Step 6 admits or denies one of the balance, reserve or existence codes. -/
lemma canPayPost_cases (s : LedgerState) (source destination : Addr) (cur : Cur)
    (issuer : Addr) (amount : Int) :
    canPayPost s source destination cur issuer amount = PayDecision.Admissible ∨
    canPayPost s source destination cur issuer amount =
      PayDecision.Denied TxResult.InsufficientLimit ∨
    canPayPost s source destination cur issuer amount =
      PayDecision.Denied TxResult.InsufficientReserve ∨
    canPayPost s source destination cur issuer amount =
      PayDecision.Denied TxResult.NotFound := by
  cases cur with
  | xrp =>
    unfold canPayPost
    repeat' split
    all_goals simp
  | iou code =>
    unfold canPayPost
    repeat' split
    all_goals simp

/-- The evaluator never emits a denial carrying the Success code. -/
lemma canPayAux_denied_ne_success (b : Bool) (s : LedgerState)
    (source destination : Addr) (cur : Cur) (issuer : Addr) (amount : Int)
    (r : TxResult)
    (h : canPayAux b s source destination cur issuer amount = PayDecision.Denied r) :
    r ≠ TxResult.Success := by
  intro hr
  subst hr
  unfold canPayAux at h
  rcases canPayPre_cases s source destination cur issuer with hp | hp <;> rw [hp] at h
  · simp only [] at h
    split at h
    · simp at h
    · rcases canPayPost_cases s source destination cur issuer amount with
        hq | hq | hq | hq <;> rw [hq] at h <;> simp at h
  · simp at h

/-- Clearing a flag other than AllowTrustLineClawback makes it read false on
the cleared account. -/
lemma hasFlag_clearFlagOp_self (s : LedgerState) (b : Addr) (f : Flag)
    (hf : f ≠ Flag.AllowTrustLineClawback) :
    hasFlag (clearFlagOp s b f) b f = false := by
  unfold clearFlagOp
  rw [if_neg hf]
  unfold hasFlag accountFlags
  rw [getAccount_updateAccount s b (clearFlagFn f) (fun x => rfl) b, if_pos rfl]
  rcases hx : getAccount s b with _ | x
  · rfl
  · simp [clearFlagFn, List.mem_filter]

/-- Setting a flag does not touch trust lines. -/
lemma getLine_setFlagOp (s : LedgerState) (a : Addr) (f : Flag) (h i : Addr)
    (cu : Nat) : getLine (setFlagOp s a f) h i cu = getLine s h i cu := rfl

/-- A true flag read implies the account exists. -/
lemma hasFlag_exists (s : LedgerState) (a : Addr) (f : Flag)
    (h : hasFlag s a f = true) : ∃ x, getAccount s a = some x := by
  unfold hasFlag accountFlags at h
  cases hacct : getAccount s a with
  | none => rw [hacct] at h; simp at h
  | some x => exact ⟨x, rfl⟩

/-- Payment execution never touches the checks component. -/
lemma findCheck_execPayment (s : LedgerState) (source destination : Addr)
    (cur : Cur) (issuer : Addr) (amount : Int) (i : Nat) :
    findCheck (execPayment s source destination cur issuer amount) i = findCheck s i := by
  cases cur with
  | xrp => rfl
  | iou code =>
    simp only [execPayment]
    split <;> split <;> rfl

/-- Payment execution never touches any account's flags. -/
lemma hasFlag_execPayment (s : LedgerState) (source destination : Addr)
    (cur : Cur) (issuer : Addr) (amount : Int) (a : Addr) (f : Flag) :
    hasFlag (execPayment s source destination cur issuer amount) a f = hasFlag s a f := by
  cases cur with
  | xrp =>
    simp only [execPayment]
    rw [hasFlag_updateAccount_flagsEq _ destination (xrpCreditFn amount)
        (fun x => rfl) (fun x => rfl) a f,
      hasFlag_updateAccount_flagsEq s source (xrpDebitFn amount)
        (fun x => rfl) (fun x => rfl) a f]
  | iou code =>
    simp only [execPayment]
    split <;> split <;> rfl

end Ledger

section FundClaims

open FundService

/-- C9: if the target wallet already exists with a validated balance at least
the requested (valid) amount, `fundWallet` returns without submitting any
payment or faucet call and without touching the network state; consequently a
second `fundWallet` call with the same amount immediately after a successful
one performs no transfer. -/
theorem fundWallet_guard_idempotent (st : NetworkState) (d : Int)
    (hval : amountInvalid d = false) (htb : 0 ≤ st.targetBalance) :
    (st.targetExists = true → d ≤ st.targetBalance →
      fundWallet st d = { error := none, actions := [], state := st }) ∧
    ((fundWallet st d).error = none →
      fundWallet (fundWallet st d).state d =
        { error := none, actions := [], state := (fundWallet st d).state }) := by
  constructor
  · intro hex hbal
    simp [fundWallet, hval, hex, hbal]
  · intro herr
    have hd : 0 < d := by
      have := hval
      simp [amountInvalid, xrpToDropsInt] at this
      omega
    by_cases hearly : st.targetExists = true ∧ d ≤ st.targetBalance
    · simp [fundWallet, hval, hearly.1, hearly.2]
    · by_cases hfaucet : ¬ st.fundExists = true ∨
          st.fundBalance < d + XRP_MINIMUM_DROPS
      · by_cases hstill :
            (if st.fundExists = true then st.fundBalance else 0) + xrpToDropsInt 100 <
              d + XRP_MINIMUM_DROPS
        · exfalso
          simp only [fundWallet, hval, Bool.false_eq_true, if_neg, hfaucet, hstill] at herr
          simp only [if_neg hearly, if_pos hfaucet, if_pos hstill] at herr
          simp at herr
        · have hrun : fundWallet st d =
              { error := none
                actions := [FundAction.faucetFundWallet, FundAction.paymentToTarget d]
                state :=
                  { targetExists := true
                    targetBalance := (if st.targetExists then st.targetBalance else 0) + d
                    fundExists := true
                    fundBalance :=
                      ((if st.fundExists then st.fundBalance else 0) + xrpToDropsInt 100) - d } } := by
            simp only [fundWallet, hval, if_neg hearly, if_pos hfaucet, if_neg hstill]
            simp
          rw [hrun]
          have hb : d ≤ (if st.targetExists = true then st.targetBalance else 0) + d := by
            split <;> omega
          simp [fundWallet, hval, hb]
      · have hrun : fundWallet st d =
            { error := none
              actions := [FundAction.paymentToTarget d]
              state :=
                { targetExists := true
                  targetBalance := (if st.targetExists then st.targetBalance else 0) + d
                  fundExists := st.fundExists
                  fundBalance := st.fundBalance - d } } := by
          simp only [fundWallet, hval, if_neg hearly, if_neg hfaucet]
          simp
        rw [hrun]
        have hb : d ≤ (if st.targetExists = true then st.targetBalance else 0) + d := by
          split <;> omega
        simp [fundWallet, hval, hb]

/-- Witness for C9 at a concrete state: the target exists with 5 XRP, a
2 XRP funding request performs no transfer. -/
theorem fundWallet_guard_idempotent_witness :
    fundWallet { targetExists := true, targetBalance := 5000000,
                 fundExists := true, fundBalance := 100000000 } 2000000 =
      { error := none, actions := [],
        state := { targetExists := true, targetBalance := 5000000,
                   fundExists := true, fundBalance := 100000000 } } :=
  (fundWallet_guard_idempotent
      { targetExists := true, targetBalance := 5000000,
        fundExists := true, fundBalance := 100000000 } 2000000
      (by decide) (by decide)).1 rfl (by decide)

/-- C10: `fundWallet` throws `Amount must be between 1 and 100 XRP` — with no
network action and no state change — exactly when the requested amount in
drops lies outside [1 XRP, 100 XRP]; inside that inclusive range the
validation passes (any later error carries a different message). -/
theorem fundWallet_amount_validation (st : NetworkState) (d : Int) :
    (amountInvalid d = true ↔ (d < xrpToDropsInt 1 ∨ xrpToDropsInt 100 < d)) ∧
    (amountInvalid d = true →
      fundWallet st d =
        { error := some "Amount must be between 1 and 100 XRP", actions := [], state := st }) ∧
    (xrpToDropsInt 1 ≤ d → d ≤ xrpToDropsInt 100 →
      (fundWallet st d).error ≠ some "Amount must be between 1 and 100 XRP") := by
  refine ⟨?_, ?_, ?_⟩
  · simp [amountInvalid, xrpToDropsInt]
    omega
  · intro h
    simp [fundWallet, h]
  · intro h1 h100
    have hval : amountInvalid d = false := by
      simp [amountInvalid, xrpToDropsInt] at h1 h100 ⊢
      omega
    simp only [fundWallet, hval, Bool.false_eq_true, if_false]
    repeat' split
    all_goals simp

/-- Witness for C10: 0 drops is rejected with the exact message and no state
change; 50 XRP passes validation. -/
theorem fundWallet_amount_validation_witness :
    (fundWallet { targetExists := false, targetBalance := 0,
                  fundExists := false, fundBalance := 0 } 0 =
      { error := some "Amount must be between 1 and 100 XRP", actions := [],
        state := { targetExists := false, targetBalance := 0,
                   fundExists := false, fundBalance := 0 } }) ∧
    (fundWallet { targetExists := true, targetBalance := 0,
                  fundExists := true, fundBalance := 100000000 } 50000000).error ≠
      some "Amount must be between 1 and 100 XRP" :=
  ⟨(fundWallet_amount_validation
      { targetExists := false, targetBalance := 0,
        fundExists := false, fundBalance := 0 } 0).2.1 (by decide),
   (fundWallet_amount_validation
      { targetExists := true, targetBalance := 0,
        fundExists := true, fundBalance := 100000000 } 50000000).2.2
      (by decide) (by decide)⟩

end FundClaims

namespace LedgerClaims

open Ledger

/-- C1: applying a Clawback transaction by the issuer to a holder whose
trust-line balance is B leaves that balance at max(0, B - R) and returns
Success for every requested amount R, including R greater than B — it never
fails on over-request (spec sections 4.5, 8;
allow-trustline-clawback.test.ts:359-407). -/
theorem clawback_clamp (s : LedgerState) (issuer holder : Addr) (cur : Nat)
    (R B : Int) (l : TrustLine)
    (hl : getLine s holder issuer cur = some l)
    (hB : l.balance = B) (h0 : 0 ≤ B) :
    (applyTx s (Tx.clawback issuer holder cur R)).1 = TxResult.Success ∧
    lineBalance (applyTx s (Tx.clawback issuer holder cur R)).2 holder issuer cur =
      max 0 (B - R) := by
  constructor
  · simp [applyTx, applyClawback, hl]
  · have hstate : (applyTx s (Tx.clawback issuer holder cur R)).2 =
        updateLine s holder issuer cur (clawbackFn R) := by
      simp [applyTx, applyClawback, hl]
    rw [hstate]
    unfold lineBalance
    rw [getLine_updateLine s holder issuer cur (clawbackFn R)
        (fun x => rfl) (fun x => rfl) (fun x => rfl) holder issuer cur,
      if_pos ⟨rfl, rfl, rfl⟩, hl]
    subst hB
    simp only [Option.map_some', Option.elim, clawbackFn]
    omega

/-- Witness for C1 at a concrete ledger: a clawback of 500 against a balance
of 300 succeeds and leaves the balance at 0 = max(0, 300 - 500). -/
theorem clawback_clamp_witness :
    (applyTx c1Ledger (Tx.clawback 0 1 7 500)).1 = TxResult.Success ∧
    lineBalance (applyTx c1Ledger (Tx.clawback 0 1 7 500)).2 1 0 7 =
      max 0 (300 - 500) :=
  clawback_clamp c1Ledger 0 1 7 500 300 ⟨1, 0, 7, 1000, 300, false, false, false⟩
    (by decide) rfl (by decide)

/-- C2: once AllowTrustLineClawback reads true on an account, no transaction
of the engine ever makes it read false again, and the specific
AccountSet-clear of that flag returns Success while leaving the whole state
untouched (spec sections 3, 4.1, 8;
allow-trustline-clawback.test.ts:410-443). -/
theorem clawback_flag_permanent (s : LedgerState) (a : Addr)
    (h : hasFlag s a Flag.AllowTrustLineClawback = true) :
    (∀ tx, hasFlag (applyTx s tx).2 a Flag.AllowTrustLineClawback = true) ∧
    applyTx s (Tx.accountSetClear a Flag.AllowTrustLineClawback) =
      (TxResult.Success, s) := by
  constructor
  · intro tx
    cases tx with
    | accountSetSet b f =>
      simp only [applyTx, applyAccountSetSet]
      rcases hacct : getAccount s b with _ | x <;> simp only [hacct]
      · exact h
      · exact hasFlag_setFlagOp_mono s b f a _ h
    | accountSetClear b f =>
      simp only [applyTx, applyAccountSetClear]
      rcases hacct : getAccount s b with _ | x <;> simp only [hacct]
      · exact h
      · exact hasFlag_clearFlagOp_claw s b f a h
    | trustSet holder issuer cur limit =>
      simp only [applyTx, applyTrustSet]
      rcases hline : getLine s holder issuer cur with _ | l <;> simp only [hline] <;> exact h
    | trustAuthorize issuer holder cur =>
      simp only [applyTx, applyTrustAuthorize]
      rcases hline : getLine s holder issuer cur with _ | l <;> simp only [hline] <;> exact h
    | payment source destination cur issuer amount =>
      simp only [applyTx, applyPayment]
      rcases hp : canPay s source destination cur issuer amount with _ | r <;>
        simp only [hp]
      · rw [hasFlag_execPayment]
        exact h
      · exact h
    | clawback issuer holder cur amount =>
      simp only [applyTx, applyClawback]
      rcases hline : getLine s holder issuer cur with _ | l <;> simp only [hline] <;> exact h
    | checkCreate creator destination cur issuer maxAmount =>
      simp only [applyTx, applyCheckCreate]
      exact h
    | checkCash checkId actor amount =>
      simp only [applyTx, applyCheckCash]
      rcases hc : findCheck s checkId with _ | c <;> simp only [hc]
      · exact h
      · split
        · exact h
        · split
          · exact h
          · split
            · exact h
            · rcases hp : canPayAux true s c.creator c.destination
                  (Cur.iou c.currency) c.issuer amount with _ | r <;> simp only [hp]
              · have hstep : hasFlag (updateCheck (execPayment s c.creator c.destination
                    (Cur.iou c.currency) c.issuer amount) checkId cashedFn) a
                    Flag.AllowTrustLineClawback =
                    hasFlag (execPayment s c.creator c.destination
                      (Cur.iou c.currency) c.issuer amount) a
                      Flag.AllowTrustLineClawback := rfl
                rw [hstep, hasFlag_execPayment]
                exact h
              · exact h
    | checkCancel checkId actor =>
      simp only [applyTx, applyCheckCancel]
      rcases hc : findCheck s checkId with _ | c <;> simp only [hc]
      · exact h
      · split
        · exact h
        · split
          · exact h
          · exact h
    | depositPreauth a' b' =>
      simp only [applyTx, applyDepositPreauth]
      rcases hacct : getAccount s a' with _ | x <;> simp only [hacct]
      · exact h
      · rw [hasFlag_updateAccount_flagsEq s a' (preauthAddFn b')
          (fun x => rfl) (fun x => rfl) a _]
        exact h
    | depositUnauth a' b' =>
      simp only [applyTx, applyDepositUnauth]
      rcases hacct : getAccount s a' with _ | x <;> simp only [hacct]
      · exact h
      · rw [hasFlag_updateAccount_flagsEq s a' (preauthRemoveFn b')
          (fun x => rfl) (fun x => rfl) a _]
        exact h
  · obtain ⟨x, hx⟩ := hasFlag_exists s a _ h
    simp only [applyTx, applyAccountSetClear, hx]
    unfold clearFlagOp
    rw [if_pos rfl]

/-- Witness for C2 at a concrete ledger: after the clear transaction the flag
is still set and the clear returned Success with the state unchanged. -/
theorem clawback_flag_permanent_witness :
    (hasFlag (applyTx c2Ledger
        (Tx.accountSetClear 0 Flag.AllowTrustLineClawback)).2 0
        Flag.AllowTrustLineClawback = true) ∧
    applyTx c2Ledger (Tx.accountSetClear 0 Flag.AllowTrustLineClawback) =
      (TxResult.Success, c2Ledger) :=
  ⟨(clawback_flag_permanent c2Ledger 0 (by decide)).1
      (Tx.accountSetClear 0 Flag.AllowTrustLineClawback),
   (clawback_flag_permanent c2Ledger 0 (by decide)).2⟩

/-- C8: every transaction of the engine is all-or-nothing: whenever the
result code is not Success, the returned state is exactly the input state —
no partial mutation is observable (spec sections 2, 4.5, 7). -/
theorem tx_atomicity (s : LedgerState) (tx : Tx)
    (h : (applyTx s tx).1 ≠ TxResult.Success) : (applyTx s tx).2 = s := by
  cases tx with
  | accountSetSet a f =>
    rcases hacct : getAccount s a with _ | x
    · simp [applyTx, applyAccountSetSet, hacct]
    · simp [applyTx, applyAccountSetSet, hacct] at h
  | accountSetClear a f =>
    rcases hacct : getAccount s a with _ | x
    · simp [applyTx, applyAccountSetClear, hacct]
    · simp [applyTx, applyAccountSetClear, hacct] at h
  | trustSet holder issuer cur limit =>
    rcases hline : getLine s holder issuer cur with _ | l
    · simp [applyTx, applyTrustSet, hline] at h
    · simp [applyTx, applyTrustSet, hline] at h
  | trustAuthorize issuer holder cur =>
    rcases hline : getLine s holder issuer cur with _ | l
    · simp [applyTx, applyTrustAuthorize, hline]
    · simp [applyTx, applyTrustAuthorize, hline] at h
  | payment source destination cur issuer amount =>
    rcases hp : canPay s source destination cur issuer amount with _ | r
    · simp [applyTx, applyPayment, hp] at h
    · simp [applyTx, applyPayment, hp]
  | clawback issuer holder cur amount =>
    rcases hline : getLine s holder issuer cur with _ | l
    · simp [applyTx, applyClawback, hline]
    · simp [applyTx, applyClawback, hline] at h
  | checkCreate creator destination cur issuer maxAmount =>
    simp [applyTx, applyCheckCreate] at h
  | checkCash checkId actor amount =>
    rcases hc : findCheck s checkId with _ | c
    · simp [applyTx, applyCheckCash, hc]
    · by_cases h1 : c.status ≠ CheckStatus.Open
      · simp [applyTx, applyCheckCash, hc, h1]
      · by_cases h2 : actor ≠ c.destination
        · simp [applyTx, applyCheckCash, hc, h1, h2]
        · by_cases h3 : c.maxAmount < amount
          · simp [applyTx, applyCheckCash, hc, h1, h2, h3]
          · rcases hp : canPayAux true s c.creator c.destination
                (Cur.iou c.currency) c.issuer amount with _ | r
            · exfalso
              apply h
              simp [applyTx, applyCheckCash, hc, h1, h2, h3, hp]
            · simp [applyTx, applyCheckCash, hc, h1, h2, h3, hp]
  | checkCancel checkId actor =>
    rcases hc : findCheck s checkId with _ | c
    · simp [applyTx, applyCheckCancel, hc]
    · by_cases h1 : c.status ≠ CheckStatus.Open
      · simp [applyTx, applyCheckCancel, hc, h1]
      · by_cases h2 : actor = c.creator ∨ actor = c.destination
        · exfalso
          apply h
          simp [applyTx, applyCheckCancel, hc, h1, h2]
        · simp [applyTx, applyCheckCancel, hc, h1, h2]
  | depositPreauth a b =>
    rcases hacct : getAccount s a with _ | x
    · simp [applyTx, applyDepositPreauth, hacct]
    · simp [applyTx, applyDepositPreauth, hacct] at h
  | depositUnauth a b =>
    rcases hacct : getAccount s a with _ | x
    · simp [applyTx, applyDepositUnauth, hacct]
    · simp [applyTx, applyDepositUnauth, hacct] at h

/-- Witness for C8 at a concrete ledger: a payment denied by DepositAuth
leaves the state exactly unchanged. -/
theorem tx_atomicity_witness :
    (applyTx c8Ledger (Tx.payment 1 2 Cur.xrp 0 500)).2 = c8Ledger :=
  tx_atomicity c8Ledger (Tx.payment 1 2 Cur.xrp 0 500) (by decide)

/-- C7: a check that is already terminal (Cashed or Canceled) is never
changed by any transaction; cashing a canceled check fails with NoEntry and
leaves the whole state (hence every balance) unchanged; a successful cash
requires an Open check, the destination as actor and an amount at most
maxAmount; a successful cancel requires an Open check and the creator or the
destination as actor (spec sections 3, 4.4, 7; part_002:1222-1362). -/
theorem check_terminal_states (s : LedgerState) (id : Nat) (c : Check)
    (hc : findCheck s id = some c) :
    (c.status ≠ CheckStatus.Open → ∀ tx, findCheck (applyTx s tx).2 id = some c) ∧
    (c.status = CheckStatus.Canceled → ∀ actor amt,
      applyTx s (Tx.checkCash id actor amt) = (TxResult.NoEntry, s)) ∧
    (∀ actor amt, (applyTx s (Tx.checkCash id actor amt)).1 = TxResult.Success →
      c.status = CheckStatus.Open ∧ actor = c.destination ∧ amt ≤ c.maxAmount) ∧
    (∀ actor, (applyTx s (Tx.checkCancel id actor)).1 = TxResult.Success →
      c.status = CheckStatus.Open ∧ (actor = c.creator ∨ actor = c.destination)) := by
  refine ⟨?_, ?_, ?_, ?_⟩
  · intro hterm tx
    cases tx with
    | accountSetSet b f =>
      rcases hacct : getAccount s b with _ | x <;>
        simp only [applyTx, applyAccountSetSet, hacct] <;> exact hc
    | accountSetClear b f =>
      rcases hacct : getAccount s b with _ | x <;>
        simp only [applyTx, applyAccountSetClear, hacct]
      · exact hc
      · unfold clearFlagOp
        split <;> exact hc
    | trustSet holder issuer cur limit =>
      rcases hline : getLine s holder issuer cur with _ | l <;>
        simp only [applyTx, applyTrustSet, hline] <;> exact hc
    | trustAuthorize issuer holder cur =>
      rcases hline : getLine s holder issuer cur with _ | l <;>
        simp only [applyTx, applyTrustAuthorize, hline] <;> exact hc
    | payment source destination cur issuer amount =>
      rcases hp : canPay s source destination cur issuer amount with _ | r <;>
        simp only [applyTx, applyPayment, hp]
      · rw [findCheck_execPayment]
        exact hc
      · exact hc
    | clawback issuer holder cur amount =>
      rcases hline : getLine s holder issuer cur with _ | l <;>
        simp only [applyTx, applyClawback, hline] <;> exact hc
    | checkCreate creator destination cur issuer maxAmount =>
      simp only [applyTx, applyCheckCreate]
      unfold findCheck at hc ⊢
      simp only [List.find?_append, hc]
      rfl
    | checkCash checkId actor amount =>
      rcases hfc : findCheck s checkId with _ | c' <;>
        simp only [applyTx, applyCheckCash, hfc]
      · exact hc
      · by_cases h1 : c'.status ≠ CheckStatus.Open
        · simp only [if_pos h1]
          exact hc
        · by_cases h2 : actor ≠ c'.destination
          · simp only [if_neg h1, if_pos h2]
            exact hc
          · by_cases h3 : c'.maxAmount < amount
            · simp only [if_neg h1, if_neg h2, if_pos h3]
              exact hc
            · simp only [if_neg h1, if_neg h2, if_neg h3]
              rcases hp : canPayAux true s c'.creator c'.destination
                  (Cur.iou c'.currency) c'.issuer amount with _ | r <;> simp only [hp]
              · by_cases hid : id = checkId
                · exfalso
                  subst hid
                  rw [hc] at hfc
                  have hcc : c = c' := by
                    injection hfc
                  rw [hcc] at hterm
                  exact hterm (not_not.mp h1)
                · rw [findCheck_updateCheck _ checkId cashedFn (fun x => rfl) id,
                    if_neg hid, findCheck_execPayment]
                  exact hc
              · exact hc
    | checkCancel checkId actor =>
      rcases hfc : findCheck s checkId with _ | c' <;>
        simp only [applyTx, applyCheckCancel, hfc]
      · exact hc
      · by_cases h1 : c'.status ≠ CheckStatus.Open
        · simp only [if_pos h1]
          exact hc
        · by_cases h2 : actor = c'.creator ∨ actor = c'.destination
          · simp only [if_neg h1, if_pos h2]
            by_cases hid : id = checkId
            · exfalso
              subst hid
              rw [hc] at hfc
              have hcc : c = c' := by
                injection hfc
              rw [hcc] at hterm
              exact hterm (not_not.mp h1)
            · rw [findCheck_updateCheck s checkId canceledFn (fun x => rfl) id,
                if_neg hid]
              exact hc
          · simp only [if_neg h1, if_neg h2]
            exact hc
    | depositPreauth a b =>
      rcases hacct : getAccount s a with _ | x <;>
        simp only [applyTx, applyDepositPreauth, hacct] <;> exact hc
    | depositUnauth a b =>
      rcases hacct : getAccount s a with _ | x <;>
        simp only [applyTx, applyDepositUnauth, hacct] <;> exact hc
  · intro hcanc actor amt
    have h1 : c.status ≠ CheckStatus.Open := by
      rw [hcanc]
      simp
    simp only [applyTx, applyCheckCash, hc, if_pos h1]
  · intro actor amt hsucc
    by_cases h1 : c.status ≠ CheckStatus.Open
    · simp [applyTx, applyCheckCash, hc, h1] at hsucc
    · by_cases h2 : actor ≠ c.destination
      · simp [applyTx, applyCheckCash, hc, h1, h2] at hsucc
      · by_cases h3 : c.maxAmount < amt
        · simp [applyTx, applyCheckCash, hc, h1, h2, h3] at hsucc
        · exact ⟨not_not.mp h1, not_not.mp h2, not_lt.mp h3⟩
  · intro actor hsucc
    by_cases h1 : c.status ≠ CheckStatus.Open
    · simp [applyTx, applyCheckCancel, hc, h1] at hsucc
    · by_cases h2 : actor = c.creator ∨ actor = c.destination
      · exact ⟨not_not.mp h1, h2⟩
      · simp [applyTx, applyCheckCancel, hc, h1, h2] at hsucc

/-- Witness for C7 at a concrete ledger: cashing the canceled check returns
NoEntry and leaves the state unchanged. -/
theorem check_terminal_states_witness :
    applyTx c7Ledger (Tx.checkCash 0 2 500) = (TxResult.NoEntry, c7Ledger) :=
  (check_terminal_states c7Ledger 0 ⟨0, 1, 2, 7, 0, 800, CheckStatus.Canceled⟩
      (by decide)).2.1 rfl 2 500

/-- C3: with DepositAuth set on the destination and an Open check from the
creator, cashing the check for an amount within maxAmount succeeds and moves
exactly that amount from the creator's trust line to the destination's,
while the identical direct Payment in the same state is denied NoPermission
(spec sections 3, 4.4, 8; part_003:337-415).  The hypotheses state the
check's scenario: both parties distinct from each other and from the issuer,
existing trust lines, and a payment that is admissible once the DepositAuth
step is suppressed. -/
theorem checkCash_bypasses_depositAuth (s : LedgerState) (id : Nat) (c : Check)
    (amt : Int) (lc ld : TrustLine)
    (hc : findCheck s id = some c)
    (hopen : c.status = CheckStatus.Open)
    (hd : hasFlag s c.destination Flag.DepositAuth = true)
    (hpre : (preauthList s c.destination).contains c.creator = false)
    (hne : c.creator ≠ c.destination)
    (hci : c.creator ≠ c.issuer) (hdi : c.destination ≠ c.issuer)
    (hamt : amt ≤ c.maxAmount)
    (hlc : getLine s c.creator c.issuer c.currency = some lc)
    (hld : getLine s c.destination c.issuer c.currency = some ld)
    (hadm : canPayAux true s c.creator c.destination (Cur.iou c.currency) c.issuer amt =
      PayDecision.Admissible) :
    (applyTx s (Tx.checkCash id c.destination amt)).1 = TxResult.Success ∧
    lineBalance (applyTx s (Tx.checkCash id c.destination amt)).2
      c.creator c.issuer c.currency = lc.balance - amt ∧
    lineBalance (applyTx s (Tx.checkCash id c.destination amt)).2
      c.destination c.issuer c.currency = ld.balance + amt ∧
    (applyTx s (Tx.payment c.creator c.destination (Cur.iou c.currency) c.issuer amt)).1 =
      TxResult.NoPermission := by
  have h1 : ¬(c.status ≠ CheckStatus.Open) := by
    rw [hopen]
    simp
  have h2 : ¬(c.destination ≠ c.destination) := by simp
  have h3 : ¬(c.maxAmount < amt) := not_lt.mpr hamt
  have hstate : applyTx s (Tx.checkCash id c.destination amt) =
      (TxResult.Success,
        updateCheck (execPayment s c.creator c.destination (Cur.iou c.currency)
          c.issuer amt) id cashedFn) := by
    simp only [applyTx, applyCheckCash, hc, if_neg h1, if_neg h2, if_neg h3, hadm]
  have hexec : execPayment s c.creator c.destination (Cur.iou c.currency) c.issuer amt =
      updateLine (updateLine s c.creator c.issuer c.currency (balanceSubFn amt))
        c.destination c.issuer c.currency (balanceAddFn amt) := by
    simp only [execPayment]
    rw [if_neg hci, if_neg hdi]
  refine ⟨?_, ?_, ?_, ?_⟩
  · rw [hstate]
  · rw [hstate]
    show lineBalance (execPayment s c.creator c.destination (Cur.iou c.currency)
        c.issuer amt) c.creator c.issuer c.currency = lc.balance - amt
    rw [hexec]
    unfold lineBalance
    rw [getLine_updateLine _ c.destination c.issuer c.currency (balanceAddFn amt)
        (fun x => rfl) (fun x => rfl) (fun x => rfl) c.creator c.issuer c.currency,
      if_neg (fun hk => hne hk.1),
      getLine_updateLine s c.creator c.issuer c.currency (balanceSubFn amt)
        (fun x => rfl) (fun x => rfl) (fun x => rfl) c.creator c.issuer c.currency,
      if_pos ⟨rfl, rfl, rfl⟩, hlc]
    simp [balanceSubFn]
  · rw [hstate]
    show lineBalance (execPayment s c.creator c.destination (Cur.iou c.currency)
        c.issuer amt) c.destination c.issuer c.currency = ld.balance + amt
    rw [hexec]
    unfold lineBalance
    rw [getLine_updateLine _ c.destination c.issuer c.currency (balanceAddFn amt)
        (fun x => rfl) (fun x => rfl) (fun x => rfl) c.destination c.issuer c.currency,
      if_pos ⟨rfl, rfl, rfl⟩,
      getLine_updateLine s c.creator c.issuer c.currency (balanceSubFn amt)
        (fun x => rfl) (fun x => rfl) (fun x => rfl) c.destination c.issuer c.currency,
      if_neg (fun hk => hne hk.1.symm), hld]
    simp [balanceAddFn]
  · obtain ⟨hpre', hpost⟩ := canPayAuxTrue_admissible s c.creator c.destination
      (Cur.iou c.currency) c.issuer amt hadm
    have hpre2 : c.creator ∉ preauthList s c.destination := by
      simpa using hpre
    have hgate : depositGate s c.creator c.destination = true := by
      unfold depositGate
      simp [hd, bne_iff_ne, hne, hpre2]
    have hp := canPay_noPermission_of_gate s c.creator c.destination
      (Cur.iou c.currency) c.issuer amt hpre' hgate
    simp only [applyTx, applyPayment, hp]

/-- Witness for C3 at a concrete ledger: the destination cashes 500 despite
its DepositAuth, balances move 20000 -> 19500 and 0 -> 500, and the direct
payment is denied NoPermission. -/
theorem checkCash_bypasses_depositAuth_witness :
    (applyTx c3Ledger (Tx.checkCash 0 2 500)).1 = TxResult.Success ∧
    lineBalance (applyTx c3Ledger (Tx.checkCash 0 2 500)).2 1 0 7 = 20000 - 500 ∧
    lineBalance (applyTx c3Ledger (Tx.checkCash 0 2 500)).2 2 0 7 = 0 + 500 ∧
    (applyTx c3Ledger (Tx.payment 1 2 (Cur.iou 7) 0 500)).1 = TxResult.NoPermission :=
  checkCash_bypasses_depositAuth c3Ledger 0 ⟨0, 1, 2, 7, 0, 800, CheckStatus.Open⟩
    500 ⟨1, 0, 7, 1000000, 20000, false, false, false⟩
    ⟨2, 0, 7, 1000000, 0, false, false, false⟩
    (by decide) rfl (by decide) (by decide) (by decide) (by decide) (by decide)
    (by decide) (by decide) (by decide) (by decide)

/-- C5: with DepositAuth set on B, outgoing payments from B are unaffected
by the flag (setting it changes no outgoing verdict, for any asset);
any payment into B from a non-preauthorized A that is otherwise admissible
is denied NoPermission; granting B's preauthorization to A makes the same
payment admissible, and revoking it makes the payment denied NoPermission
again (spec sections 3, 4.3 step 4, 8; part_002:276-743). -/
theorem depositAuth_direction_preauth (s : LedgerState) (A B : Addr) (cur : Cur)
    (issuer : Addr) (amt : Int) (bacct : Account)
    (hAB : A ≠ B)
    (hB : getAccount s B = some bacct)
    (hflag : hasFlag s B Flag.DepositAuth = true)
    (hpre : bacct.preauthorized.contains A = false)
    (hadm : canPayAux true s A B cur issuer amt = PayDecision.Admissible) :
    (∀ t C cur' iss' amt', C ≠ B →
      canPay (setFlagOp t B Flag.DepositAuth) B C cur' iss' amt' =
        canPay t B C cur' iss' amt') ∧
    canPay s A B cur issuer amt = PayDecision.Denied TxResult.NoPermission ∧
    ((applyTx s (Tx.depositPreauth B A)).1 = TxResult.Success ∧
      canPay (applyTx s (Tx.depositPreauth B A)).2 A B cur issuer amt =
        PayDecision.Admissible) ∧
    canPay (applyTx (applyTx s (Tx.depositPreauth B A)).2 (Tx.depositUnauth B A)).2
      A B cur issuer amt = PayDecision.Denied TxResult.NoPermission := by
  obtain ⟨hpreOk, hpostOk⟩ := canPayAuxTrue_admissible s A B cur issuer amt hadm
  have hpreA : A ∉ preauthList s B := by
    unfold preauthList
    rw [hB]
    simpa using hpre
  have hs1 : (applyTx s (Tx.depositPreauth B A)).2 = updateAccount s B (preauthAddFn A) := by
    simp only [applyTx, applyDepositPreauth, hB]
  have hacc1 : getAccount (updateAccount s B (preauthAddFn A)) B =
      some (preauthAddFn A bacct) := by
    rw [getAccount_updateAccount s B (preauthAddFn A) (fun x => rfl) B, if_pos rfl, hB]
    rfl
  have hs2 : (applyTx (updateAccount s B (preauthAddFn A)) (Tx.depositUnauth B A)).2 =
      updateAccount (updateAccount s B (preauthAddFn A)) B (preauthRemoveFn A) := by
    simp only [applyTx, applyDepositUnauth, hacc1]
  refine ⟨?_, ?_, ⟨?_, ?_⟩, ?_⟩
  · intro t C cur' iss' amt' hCB
    exact canPay_eq_of_reads (setFlagOp t B Flag.DepositAuth) t B C cur' iss' amt'
      rfl
      (hasFlag_setFlagOp_ne t B Flag.DepositAuth iss' Flag.RequireAuth (by decide))
      (hasFlag_setFlagOp_ne t B Flag.DepositAuth iss' Flag.GlobalFreeze (by decide))
      (hasFlag_updateAccount_ne t B (setFlagFn Flag.DepositAuth) (fun x => rfl) C
        Flag.DepositAuth hCB)
      (preauthList_updateAccount_ne t B (setFlagFn Flag.DepositAuth) (fun x => rfl) C hCB)
      (xrpMap_updateAccount t B (setFlagFn Flag.DepositAuth) (fun x => rfl)
        (fun x => rfl) B)
  · have hgate : depositGate s A B = true := by
      unfold depositGate
      simp [hflag, bne_iff_ne, hAB, hpreA]
    exact canPay_noPermission_of_gate s A B cur issuer amt hpreOk hgate
  · simp only [applyTx, applyDepositPreauth, hB]
  · rw [hs1]
    have haux : canPayAux true (updateAccount s B (preauthAddFn A)) A B cur issuer amt =
        canPayAux true s A B cur issuer amt :=
      canPayAuxTrue_eq_of_reads _ s A B cur issuer amt rfl
        (hasFlag_updateAccount_flagsEq s B (preauthAddFn A) (fun x => rfl)
          (fun x => rfl) issuer Flag.RequireAuth)
        (hasFlag_updateAccount_flagsEq s B (preauthAddFn A) (fun x => rfl)
          (fun x => rfl) issuer Flag.GlobalFreeze)
        (xrpMap_updateAccount s B (preauthAddFn A) (fun x => rfl) (fun x => rfl) A)
    have hgate1 : depositGate (updateAccount s B (preauthAddFn A)) A B = false := by
      unfold depositGate preauthList
      rw [hacc1]
      have hmem : A ∈ (preauthAddFn A bacct).preauthorized := by
        unfold preauthAddFn
        have hpre' : ¬ (bacct.preauthorized.contains A = true) := by
          rw [hpre]
          simp
        simp only [if_neg hpre']
        simp
      simp [hmem]
    rw [canPay_eq_auxTrue_of_gate_false _ A B cur issuer amt hgate1, haux]
    exact hadm
  · rw [hs1, hs2]
    have hacc2 : getAccount (updateAccount (updateAccount s B (preauthAddFn A)) B
        (preauthRemoveFn A)) B = some (preauthRemoveFn A (preauthAddFn A bacct)) := by
      rw [getAccount_updateAccount _ B (preauthRemoveFn A) (fun x => rfl) B,
        if_pos rfl, hacc1]
      rfl
    have hra2 : hasFlag (updateAccount (updateAccount s B (preauthAddFn A)) B
        (preauthRemoveFn A)) issuer Flag.RequireAuth =
        hasFlag s issuer Flag.RequireAuth := by
      rw [hasFlag_updateAccount_flagsEq _ B (preauthRemoveFn A) (fun x => rfl)
          (fun x => rfl) issuer Flag.RequireAuth,
        hasFlag_updateAccount_flagsEq s B (preauthAddFn A) (fun x => rfl)
          (fun x => rfl) issuer Flag.RequireAuth]
    have hgf2 : hasFlag (updateAccount (updateAccount s B (preauthAddFn A)) B
        (preauthRemoveFn A)) issuer Flag.GlobalFreeze =
        hasFlag s issuer Flag.GlobalFreeze := by
      rw [hasFlag_updateAccount_flagsEq _ B (preauthRemoveFn A) (fun x => rfl)
          (fun x => rfl) issuer Flag.GlobalFreeze,
        hasFlag_updateAccount_flagsEq s B (preauthAddFn A) (fun x => rfl)
          (fun x => rfl) issuer Flag.GlobalFreeze]
    have hpre2 : canPayPre (updateAccount (updateAccount s B (preauthAddFn A)) B
        (preauthRemoveFn A)) A B cur issuer = PayDecision.Admissible := by
      rw [canPayPre_eq_of_reads (updateAccount (updateAccount s B (preauthAddFn A)) B
          (preauthRemoveFn A)) s A B cur issuer rfl hra2 hgf2]
      exact hpreOk
    have hflag2 : hasFlag (updateAccount (updateAccount s B (preauthAddFn A)) B
        (preauthRemoveFn A)) B Flag.DepositAuth = true := by
      rw [hasFlag_updateAccount_flagsEq _ B (preauthRemoveFn A) (fun x => rfl)
          (fun x => rfl) B Flag.DepositAuth,
        hasFlag_updateAccount_flagsEq s B (preauthAddFn A) (fun x => rfl)
          (fun x => rfl) B Flag.DepositAuth]
      exact hflag
    have hout : (preauthRemoveFn A (preauthAddFn A bacct)).preauthorized =
        bacct.preauthorized := by
      unfold preauthRemoveFn preauthAddFn
      have hpre' : ¬ (bacct.preauthorized.contains A = true) := by
        rw [hpre]
        simp
      simp only [if_neg hpre']
      simp [List.erase_cons_head]
    have hgate2 : depositGate (updateAccount (updateAccount s B (preauthAddFn A)) B
        (preauthRemoveFn A)) A B = true := by
      unfold depositGate
      rw [hflag2]
      unfold preauthList
      rw [hacc2]
      simp only [Option.elim, hout]
      simp [bne_iff_ne, hAB, hpreA]
      simpa using hpre
    exact canPay_noPermission_of_gate _ A B cur issuer amt hpre2 hgate2

/-- Witness for C5 at a concrete ledger: setting DepositAuth leaves the
outgoing payment verdict unchanged, the incoming payment is denied
NoPermission, is admitted after preauthorization, and is denied again after
revocation. -/
theorem depositAuth_direction_preauth_witness :
    canPay (setFlagOp c5Ledger 2 Flag.DepositAuth) 2 1 Cur.xrp 0 500 =
      canPay c5Ledger 2 1 Cur.xrp 0 500 ∧
    canPay c5Ledger 1 2 Cur.xrp 0 500 = PayDecision.Denied TxResult.NoPermission ∧
    canPay (applyTx c5Ledger (Tx.depositPreauth 2 1)).2 1 2 Cur.xrp 0 500 =
      PayDecision.Admissible ∧
    canPay (applyTx (applyTx c5Ledger (Tx.depositPreauth 2 1)).2
        (Tx.depositUnauth 2 1)).2 1 2 Cur.xrp 0 500 =
      PayDecision.Denied TxResult.NoPermission :=
  ⟨(depositAuth_direction_preauth c5Ledger 1 2 Cur.xrp 0 500
      ⟨2, 100000000, [Flag.DepositAuth], []⟩ (by decide) (by decide) (by decide)
      (by decide) (by decide)).1 c5Ledger 1 Cur.xrp 0 500 (by decide),
   (depositAuth_direction_preauth c5Ledger 1 2 Cur.xrp 0 500
      ⟨2, 100000000, [Flag.DepositAuth], []⟩ (by decide) (by decide) (by decide)
      (by decide) (by decide)).2.1,
   (depositAuth_direction_preauth c5Ledger 1 2 Cur.xrp 0 500
      ⟨2, 100000000, [Flag.DepositAuth], []⟩ (by decide) (by decide) (by decide)
      (by decide) (by decide)).2.2.1.2,
   (depositAuth_direction_preauth c5Ledger 1 2 Cur.xrp 0 500
      ⟨2, 100000000, [Flag.DepositAuth], []⟩ (by decide) (by decide) (by decide)
      (by decide) (by decide)).2.2.2⟩

/-- C4: with GlobalFreeze set on issuer Q, every issued-currency payment
between two non-issuer parties is denied PathDry; payments where Q itself is
the source (mint) or the destination (redeem) have exactly the verdict they
had before the freeze; and clearing the freeze again restores the original
verdict for the non-issuer payment (spec sections 4.3 step 2, 8;
part_001:299-689). -/
theorem globalFreeze_issuer_bypass (t : LedgerState) (Q A B : Addr) (c : Nat)
    (amt : Int) (qa : Account)
    (hQ : getAccount t Q = some qa)
    (hfr : qa.flags.contains Flag.GlobalFreeze = false)
    (_hA : A ≠ Q) (hB : B ≠ Q) :
    (∀ A' B' c' amt', A' ≠ Q → B' ≠ Q →
      canPay (setFlagOp t Q Flag.GlobalFreeze) A' B' (Cur.iou c') Q amt' =
        PayDecision.Denied TxResult.PathDry) ∧
    (∀ C c' amt', C ≠ Q →
      canPay (setFlagOp t Q Flag.GlobalFreeze) Q C (Cur.iou c') Q amt' =
        canPay t Q C (Cur.iou c') Q amt') ∧
    (∀ C c' amt', C ≠ Q →
      canPay (setFlagOp t Q Flag.GlobalFreeze) C Q (Cur.iou c') Q amt' =
        canPay t C Q (Cur.iou c') Q amt') ∧
    canPay (clearFlagOp (setFlagOp t Q Flag.GlobalFreeze) Q Flag.GlobalFreeze) A B
      (Cur.iou c) Q amt = canPay t A B (Cur.iou c) Q amt := by
  have hfrf : hasFlag (setFlagOp t Q Flag.GlobalFreeze) Q Flag.GlobalFreeze = true :=
    hasFlag_setFlagOp_self t Q Flag.GlobalFreeze qa hQ
  refine ⟨?_, ?_, ?_, ?_⟩
  · intro A' B' c' amt' hA' hB'
    have hpre : canPayPre (setFlagOp t Q Flag.GlobalFreeze) A' B' (Cur.iou c') Q =
        PayDecision.Denied TxResult.PathDry := by
      simp only [canPayPre]
      by_cases hgate : B' ≠ Q ∧ authGateOk (setFlagOp t Q Flag.GlobalFreeze) B' Q c' = false
      · rw [if_pos hgate]
      · rw [if_neg hgate, if_pos ⟨hfrf, hA', hB'⟩]
    unfold canPay canPayAux
    rw [hpre]
  · intro C c' amt' hC
    have hpre : canPayPre (setFlagOp t Q Flag.GlobalFreeze) Q C (Cur.iou c') Q =
        canPayPre t Q C (Cur.iou c') Q := by
      unfold canPayPre authGateOk issuerSideNoRipple
      rw [hasFlag_setFlagOp_ne t Q Flag.GlobalFreeze Q Flag.RequireAuth (by decide)]
      simp [getLine_setFlagOp]
    unfold canPay canPayAux
    rw [hpre]
    cases hp : canPayPre t Q C (Cur.iou c') Q with
    | Denied r => rfl
    | Admissible =>
      rw [depositGate_eq_of_reads (setFlagOp t Q Flag.GlobalFreeze) t Q C
          (hasFlag_updateAccount_ne t Q (setFlagFn Flag.GlobalFreeze) (fun x => rfl) C
            Flag.DepositAuth hC)
          (preauthList_updateAccount_ne t Q (setFlagFn Flag.GlobalFreeze) (fun x => rfl)
            C hC)]
      by_cases hg : depositGate t Q C = true
      · simp [hg]
      · simp [hg, canPayPost_eq_of_reads (setFlagOp t Q Flag.GlobalFreeze) t Q C
          (Cur.iou c') Q amt' rfl
          (xrpMap_updateAccount t Q (setFlagFn Flag.GlobalFreeze) (fun x => rfl)
            (fun x => rfl) Q)]
  · intro C c' amt' hC
    have hpre1 : canPayPre (setFlagOp t Q Flag.GlobalFreeze) C Q (Cur.iou c') Q =
        PayDecision.Admissible := by
      unfold canPayPre
      simp
    have hpre2 : canPayPre t C Q (Cur.iou c') Q = PayDecision.Admissible := by
      unfold canPayPre
      simp
    unfold canPay canPayAux
    rw [hpre1, hpre2]
    rw [depositGate_eq_of_reads (setFlagOp t Q Flag.GlobalFreeze) t C Q
        (hasFlag_setFlagOp_ne t Q Flag.GlobalFreeze Q Flag.DepositAuth (by decide))
        (preauthList_updateAccount_preEq t Q (setFlagFn Flag.GlobalFreeze)
          (fun x => rfl) (fun x => rfl) Q)]
    by_cases hg : depositGate t C Q = true
    · simp [hg]
    · simp [hg, canPayPost_eq_of_reads (setFlagOp t Q Flag.GlobalFreeze) t C Q
        (Cur.iou c') Q amt' rfl
        (xrpMap_updateAccount t Q (setFlagFn Flag.GlobalFreeze) (fun x => rfl)
          (fun x => rfl) C)]
  · have hne4 : Flag.GlobalFreeze ≠ Flag.AllowTrustLineClawback := by decide
    have haccf : getAccount (setFlagOp t Q Flag.GlobalFreeze) Q =
        some (setFlagFn Flag.GlobalFreeze qa) := by
      unfold setFlagOp
      rw [getAccount_updateAccount t Q (setFlagFn Flag.GlobalFreeze) (fun x => rfl) Q,
        if_pos rfl, hQ]
      rfl
    have hacc4 : getAccount (clearFlagOp (setFlagOp t Q Flag.GlobalFreeze) Q
        Flag.GlobalFreeze) Q =
        some (clearFlagFn Flag.GlobalFreeze (setFlagFn Flag.GlobalFreeze qa)) := by
      unfold clearFlagOp
      rw [if_neg hne4]
      rw [getAccount_updateAccount _ Q (clearFlagFn Flag.GlobalFreeze) (fun x => rfl) Q,
        if_pos rfl, haccf]
      rfl
    have hfr' : ¬ (qa.flags.contains Flag.GlobalFreeze = true) := by
      rw [hfr]
      simp
    have hflags4 : (clearFlagFn Flag.GlobalFreeze (setFlagFn Flag.GlobalFreeze qa)).flags =
        qa.flags := by
      unfold clearFlagFn setFlagFn
      simp only [if_neg hfr']
      simp only [List.filter_cons]
      have hself : (!(Flag.GlobalFreeze == Flag.GlobalFreeze)) = false := by decide
      rw [hself]
      simp only [Bool.false_eq_true, if_false]
      apply List.filter_eq_self.mpr
      intro a ha
      have hafr : a ≠ Flag.GlobalFreeze := by
        intro hEq
        subst hEq
        exact hfr' (by simpa using ha)
      simp [hafr]
    have hflagQ : ∀ f', hasFlag (clearFlagOp (setFlagOp t Q Flag.GlobalFreeze) Q
        Flag.GlobalFreeze) Q f' = hasFlag t Q f' := by
      intro f'
      unfold hasFlag accountFlags
      rw [hacc4, hQ]
      simp [hflags4]
    have hl4 : (clearFlagOp (setFlagOp t Q Flag.GlobalFreeze) Q Flag.GlobalFreeze).lines =
        t.lines := by
      unfold clearFlagOp
      split <;> rfl
    refine canPay_eq_of_reads _ t A B (Cur.iou c) Q amt hl4 (hflagQ Flag.RequireAuth)
      (hflagQ Flag.GlobalFreeze) ?_ ?_ ?_
    · unfold clearFlagOp
      rw [if_neg hne4]
      rw [hasFlag_updateAccount_ne _ Q (clearFlagFn Flag.GlobalFreeze) (fun x => rfl) B
          Flag.DepositAuth hB]
      unfold setFlagOp
      rw [hasFlag_updateAccount_ne t Q (setFlagFn Flag.GlobalFreeze) (fun x => rfl) B
          Flag.DepositAuth hB]
    · unfold clearFlagOp
      rw [if_neg hne4]
      rw [preauthList_updateAccount_ne _ Q (clearFlagFn Flag.GlobalFreeze) (fun x => rfl)
          B hB]
      unfold setFlagOp
      rw [preauthList_updateAccount_ne t Q (setFlagFn Flag.GlobalFreeze) (fun x => rfl)
          B hB]
    · unfold clearFlagOp
      rw [if_neg hne4]
      rw [xrpMap_updateAccount _ Q (clearFlagFn Flag.GlobalFreeze) (fun x => rfl)
          (fun x => rfl) A]
      unfold setFlagOp
      rw [xrpMap_updateAccount t Q (setFlagFn Flag.GlobalFreeze) (fun x => rfl)
          (fun x => rfl) A]

/-- Witness for C4 at a concrete ledger: under the freeze the 1 -> 2 payment
is PathDry, issuer mint and redeem keep their un-frozen verdicts, and
clearing the freeze restores the 1 -> 2 verdict. -/
theorem globalFreeze_issuer_bypass_witness :
    canPay (setFlagOp c4Ledger 0 Flag.GlobalFreeze) 1 2 (Cur.iou 7) 0 500 =
      PayDecision.Denied TxResult.PathDry ∧
    canPay (setFlagOp c4Ledger 0 Flag.GlobalFreeze) 0 1 (Cur.iou 7) 0 500 =
      canPay c4Ledger 0 1 (Cur.iou 7) 0 500 ∧
    canPay (setFlagOp c4Ledger 0 Flag.GlobalFreeze) 1 0 (Cur.iou 7) 0 500 =
      canPay c4Ledger 1 0 (Cur.iou 7) 0 500 ∧
    canPay (clearFlagOp (setFlagOp c4Ledger 0 Flag.GlobalFreeze) 0 Flag.GlobalFreeze)
      1 2 (Cur.iou 7) 0 500 = canPay c4Ledger 1 2 (Cur.iou 7) 0 500 :=
  ⟨(globalFreeze_issuer_bypass c4Ledger 0 1 2 7 500 ⟨0, 0, [Flag.DefaultRipple], []⟩
      (by decide) (by decide) (by decide) (by decide)).1 1 2 7 500 (by decide) (by decide),
   (globalFreeze_issuer_bypass c4Ledger 0 1 2 7 500 ⟨0, 0, [Flag.DefaultRipple], []⟩
      (by decide) (by decide) (by decide) (by decide)).2.1 1 7 500 (by decide),
   (globalFreeze_issuer_bypass c4Ledger 0 1 2 7 500 ⟨0, 0, [Flag.DefaultRipple], []⟩
      (by decide) (by decide) (by decide) (by decide)).2.2.1 1 7 500 (by decide),
   (globalFreeze_issuer_bypass c4Ledger 0 1 2 7 500 ⟨0, 0, [Flag.DefaultRipple], []⟩
      (by decide) (by decide) (by decide) (by decide)).2.2.2⟩

/-- C6 counterexample: in the exact scenario of the claim's cited test
(require-auth.test.ts:465-511, issuer mint to unauthorized holder), the
denial code is PathDry and not NoAuth.  The repository's own test asserts
tecPATH_DRY at require-auth.test.ts:484 and :508, and no repository test
ever asserts tecNO_AUTH, so the claim's "denied with the NoAuth result
code" is false on the code. -/
theorem authGate_noAuth_counterexample :
    canPay c6Ledger 0 3 (Cur.iou 7) 0 100 = PayDecision.Denied TxResult.PathDry ∧
    canPay c6Ledger 0 3 (Cur.iou 7) 0 100 ≠ PayDecision.Denied TxResult.NoAuth := by
  decide

/-- C6 (amended): with RequireAuth set on issuer I and H's trust line
unauthorized, every issued-currency payment to H is denied with PathDry
(the code the repository's tests assert, require-auth.test.ts:484,508);
authorizing H's line succeeds and produces exactly the authorized-line
state; after authorization the issuer's mint to H is admissible (when no
freeze, no DepositAuth gate and the amount fits the line limit); and a
second authorize call is a no-op returning Success, not an error (spec
sections 4.2, 8; require-auth.test.ts:208-256). -/
theorem requireAuth_gate_pathDry (s : LedgerState) (I H : Addr) (cur : Nat)
    (lh : TrustLine)
    (hHI : H ≠ I)
    (hline : getLine s H I cur = some lh)
    (hreq : hasFlag s I Flag.RequireAuth = true)
    (hunauth : lh.authorized = false) :
    (∀ src amt, canPay s src H (Cur.iou cur) I amt =
      PayDecision.Denied TxResult.PathDry) ∧
    applyTx s (Tx.trustAuthorize I H cur) =
      (TxResult.Success, updateLine s H I cur authorizeFn) ∧
    (∀ amt, hasFlag s I Flag.GlobalFreeze = false →
      depositGate s I H = false →
      0 < amt →
      lineBalance s H I cur + amt ≤ lineLimit s H I cur →
      canPay (updateLine s H I cur authorizeFn) I H (Cur.iou cur) I amt =
        PayDecision.Admissible) ∧
    applyTx (updateLine s H I cur authorizeFn) (Tx.trustAuthorize I H cur) =
      (TxResult.Success, updateLine s H I cur authorizeFn) := by
  have hga : authGateOk s H I cur = false := by
    simp [authGateOk, hline, hreq, hunauth]
  have hlH : getLine (updateLine s H I cur authorizeFn) H I cur =
      some (authorizeFn lh) := by
    rw [getLine_updateLine s H I cur authorizeFn (fun x => rfl) (fun x => rfl)
        (fun x => rfl) H I cur, if_pos ⟨rfl, rfl, rfl⟩, hline]
    rfl
  refine ⟨?_, ?_, ?_, ?_⟩
  · intro src amt
    have hpre : canPayPre s src H (Cur.iou cur) I =
        PayDecision.Denied TxResult.PathDry := by
      simp only [canPayPre]
      rw [if_pos ⟨hHI, hga⟩]
    unfold canPay canPayAux
    rw [hpre]
  · simp only [applyTx, applyTrustAuthorize, hline]
  · intro amt hfz hdep h0 hlim
    have hga2 : authGateOk (updateLine s H I cur authorizeFn) H I cur = true := by
      simp [authGateOk, hlH, authorizeFn]
    have hfz2 : hasFlag (updateLine s H I cur authorizeFn) I Flag.GlobalFreeze =
        false := hfz
    have hpre2 : canPayPre (updateLine s H I cur authorizeFn) I H (Cur.iou cur) I =
        PayDecision.Admissible := by
      simp only [canPayPre]
      rw [if_neg (fun hk => by rw [hga2] at hk; simp at hk),
        if_neg (fun hk => hk.2.1 rfl), if_neg (fun hk => hk.1.1 rfl)]
    have hlim2 : lineLimit (updateLine s H I cur authorizeFn) H I cur = lh.limit := by
      simp [lineLimit, hlH, authorizeFn]
    have hbal2 : lineBalance (updateLine s H I cur authorizeFn) H I cur =
        lh.balance := by
      simp [lineBalance, hlH, authorizeFn]
    have hlim' : lh.balance + amt ≤ lh.limit := by
      unfold lineBalance lineLimit at hlim
      rw [hline] at hlim
      simpa using hlim
    have hcond : ¬(H ≠ I ∧ lineLimit (updateLine s H I cur authorizeFn) H I cur <
        lineBalance (updateLine s H I cur authorizeFn) H I cur + amt) := by
      rw [hlim2, hbal2]
      intro hk
      exact absurd hk.2 (not_lt.mpr hlim')
    have hpost2 : canPayPost (updateLine s H I cur authorizeFn) I H (Cur.iou cur)
        I amt = PayDecision.Admissible := by
      simp only [canPayPost]
      rw [if_neg (not_le.mpr h0), if_neg (fun hk => hk.1 rfl), if_neg hcond]
    have hgate2 : depositGate (updateLine s H I cur authorizeFn) I H = false := hdep
    unfold canPay canPayAux
    rw [hpre2]
    simp [hgate2, hpost2]
  · simp only [applyTx, applyTrustAuthorize, hlH]
    have hidem : updateLine (updateLine s H I cur authorizeFn) H I cur authorizeFn =
        updateLine s H I cur authorizeFn := by
      unfold updateLine
      simp only [List.map_map]
      congr 1
      apply List.map_congr_left
      intro x hx
      by_cases hk : (x.holder == H && x.issuer == I && x.currency == cur) = true
      · simp only [Function.comp, hk, if_pos]
        have hk2 : ((authorizeFn x).holder == H && (authorizeFn x).issuer == I &&
            (authorizeFn x).currency == cur) = true := hk
        rw [if_pos hk2]
        rfl
      · simp only [Function.comp, hk]
        rw [if_neg (by simp [hk]), if_neg (by simp [hk])]
    rw [hidem]

/-- Witness for the amended C6 at a concrete ledger: the unauthorized mint
is denied PathDry, and after authorization the same mint is admissible. -/
theorem requireAuth_gate_pathDry_witness :
    canPay c6Ledger 0 3 (Cur.iou 7) 0 100 = PayDecision.Denied TxResult.PathDry ∧
    canPay (updateLine c6Ledger 3 0 7 authorizeFn) 0 3 (Cur.iou 7) 0 100 =
      PayDecision.Admissible :=
  ⟨(requireAuth_gate_pathDry c6Ledger 0 3 7 ⟨3, 0, 7, 1000000, 0, false, false, false⟩
      (by decide) (by decide) (by decide) (by decide)).1 0 100,
   (requireAuth_gate_pathDry c6Ledger 0 3 7 ⟨3, 0, 7, 1000000, 0, false, false, false⟩
      (by decide) (by decide) (by decide) (by decide)).2.2.1 100
      (by decide) (by decide) (by decide) (by decide)⟩

end LedgerClaims
